import Mathlib

/-!
# Ticket booking API: seat reservation, event creation and booking listing

A shallow embedding of the controllers of the ticket booking service
(`controllers/bookingController.js`, `controllers/eventController.js`, the schemas of
`models/Event.js` and `models/Booking.js`, the error handler of `server.js`) together with
the properties of the reservation path.

Conventions of the embedding.

* A JavaScript `Number` is kept as the rational number (`ℚ`) it denotes; `NaN` and
  infinities cannot occur in a JSON body.  The one arithmetic operation of the program,
  the `$inc` of the reservation, rounds its result to a double (`toDouble`).
* A request body is a parsed JSON object; a field it lacks is `undefined`.
* An `ObjectId` is a natural number.  The store hands out fresh ids from a counter.
* Every storage call (`findOneAndUpdate`, `findById`, `create`, `find`) is one atomic step.
  A handler is the sequence of its storage calls (`createBooking`, `createEvent`, ...);
  for concurrent booking requests the handler is cut at its first `await`
  (`createBookingReserve`, `createBookingResume`) and the calls of different requests
  interleave (`Server.run`).
* What the driver and the JavaScript runtime decide, and the source does not, is a
  parameter: the cast of a JSON value to an `ObjectId`, the string/number conversions, and
  which of the two array predicates of the reservation filter binds the positional
  operator.
* An infrastructure error of a storage call is a parameter of the request (`Ambient`).
-/

namespace TicketBooking

/-! ## JSON values and the JavaScript operators used on them -/

/-- Identifier of a document or of an embedded section. -/
abbrev ObjectId := Nat

/-- A field of a parsed JSON body (`express.json()`); `undefined` is an absent field.
`object ref` is an array or object value: the handlers read no part of it, and what the
runtime and the driver make of it as a whole is left to them (`ref` tells such values
apart). -/
inductive JsVal where
  | undefined
  | null
  | bool (b : Bool)
  | num (q : ℚ)
  | str (s : String)
  | object (ref : Nat)
  deriving DecidableEq

/-- JavaScript truthiness: `!v` is `!(truthy v)`. -/
def truthy : JsVal → Bool
  | .undefined => false
  | .null => false
  | .bool b => b
  | .num q => q != 0
  | .str s => s != ""
  | .object _ => true

/-- The function `Number.isInteger`: true only for a value of type number without
fractional part. -/
def numberIsInteger : JsVal → Bool
  | .num q => q.den == 1
  | _ => false

/-! ## Numbers

A number of the program is an IEEE 754 double.  The embedding keeps its exact value as a
rational and rounds where the program computes: in the `$inc` of the store.  Comparisons
of doubles are exact. -/

/-- The integer nearest to `x`, the even one of the two when `x` lies half way. -/
def roundHalfEven (x : ℚ) : ℤ :=
  if x - ⌊x⌋ < 1 / 2 then ⌊x⌋
  else if 1 / 2 < x - ⌊x⌋ then ⌊x⌋ + 1
  else if ⌊x⌋ % 2 = 0 then ⌊x⌋ else ⌊x⌋ + 1

/-- The power `2 ^ k` for an integer `k`. -/
def twoPow (k : ℤ) : ℚ :=
  if 0 ≤ k then ((2 ^ k.toNat : ℕ) : ℚ) else 1 / ((2 ^ (-k).toNat : ℕ) : ℚ)

/-- The number of binary digits of `n`, looking at no more than `fuel` of them. -/
def bitLengthAux : Nat → Nat → Nat
  | 0, _ => 0
  | fuel + 1, n => if n = 0 then 0 else bitLengthAux fuel (n / 2) + 1

/-- The number of binary digits of `n`. -/
def bitLength (n : Nat) : Nat := bitLengthAux n n

/-- The binary exponent of a positive rational `a`: the `e` with `2 ^ e ≤ a < 2 ^ (e + 1)`. -/
def binaryExponent (a : ℚ) : ℤ :=
  if twoPow ((bitLength a.num.natAbs : ℤ) - (bitLength a.den : ℤ)) ≤ a then
    (bitLength a.num.natAbs : ℤ) - (bitLength a.den : ℤ)
  else (bitLength a.num.natAbs : ℤ) - (bitLength a.den : ℤ) - 1

/-- The double nearest to `x`: `x` rounded to 53 significant binary digits, ties to even.
The range of exponents is taken as unbounded (no overflow to infinity, no subnormals). -/
def toDouble (x : ℚ) : ℚ :=
  if x = 0 then 0
  else roundHalfEven (x / twoPow (binaryExponent |x| - 52)) * twoPow (binaryExponent |x| - 52)

/-- An exception value: `error.name` and `error.message`. -/
structure JsError where
  name : String
  message : String
  deriving DecidableEq

/-! ## Documents -/

/-- An embedded section document (`sectionSchema` of `models/Event.js`). -/
structure Section where
  id : ObjectId
  name : String
  price : ℚ
  capacity : ℚ
  remaining : ℚ
  deriving DecidableEq

/-- An event document (`eventSchema`). -/
structure Event where
  id : ObjectId
  name : String
  sections : List Section
  deriving DecidableEq

/-- A booking document (`bookingSchema`). -/
structure Booking where
  id : ObjectId
  eventId : ObjectId
  sectionId : ObjectId
  qty : ℚ
  createdAt : Nat
  deriving DecidableEq

/-- The two collections, in insertion order, and the id generator. -/
structure Store where
  events : List Event
  bookings : List Booking
  nextId : Nat
  deriving DecidableEq

/-- The store before any request. -/
def Store.empty : Store := ⟨[], [], 0⟩

/-! ## What lies outside the source -/

/-- The storage call sites of the controllers. -/
inductive Site where
  | findOneAndUpdate
  | findById
  | bookingCreate
  | bookingFind
  | eventCreate
  deriving DecidableEq

/-- The surroundings of one request: the clock read by `Date.now` and, for each storage
call site, the infrastructure error it raises (if any). -/
structure Ambient where
  now : Nat
  fault : Site → Option JsError

/-- A request served without any infrastructure error. -/
def Ambient.quiet (now : Nat) : Ambient := ⟨now, fun _ => none⟩

/-- Which array predicate of the reservation filter binds the positional operator `$`.
The filter has two predicates on the same array and no `$elemMatch`; the MongoDB manual
leaves the bound position undefined in that case ("multiple conditions may override each
other"), and the server binds the last predicate evaluated. -/
inductive Positional where
  | byId
  | byRemaining
  deriving DecidableEq

/-- The Mongoose driver as the booking controller sees it. -/
structure Driver where
  castObjectId : JsVal → Option ObjectId
  positional : Positional

/-! ## Responses -/

/-- The `message` field of a response body. -/
inductive Message where
  | none
  | text (s : String)
  | notEnoughSeats (requested available : ℚ)
  deriving DecidableEq

/-- How a listed booking carries `sectionDetails`: the key is absent, holds `null`, or holds
the section. -/
inductive SectionDetails where
  | absent
  | null
  | found (s : Section)
  deriving DecidableEq

/-- One element of the listing: the booking, its populated `eventId` (`none` is `null`) and
the enrichment. -/
structure Entry where
  booking : Booking
  event : Option Event
  sectionDetails : SectionDetails
  deriving DecidableEq

/-- The `data` (and `count`) part of a response body. -/
inductive Payload where
  | none
  | event (e : Event)
  | booked (booking : Booking) (remainingSeats : ℚ)
  | listing (count : Nat) (entries : List Entry)
  deriving DecidableEq

/-- An HTTP response: status code and JSON body. -/
structure Response where
  status : Nat
  success : Bool
  message : Message
  data : Payload
  deriving DecidableEq

/-- A failure response `res.status(code).json(\x7b success: false, message \x7d)`. -/
def failure (code : Nat) (m : Message) : Response := ⟨code, false, m, .none⟩

/-! ## The booking controller (`controllers/bookingController.js`) -/

/-- The body of `POST /book`. -/
structure BookingBody where
  eventId : JsVal
  sectionId : JsVal
  qty : JsVal

/-- The second guard of `createBooking`: `qty < 1 || !Number.isInteger(qty)`.  For a value
that is not a number the second disjunct is true whatever the coerced comparison yields. -/
def qtyRejected (v : JsVal) : Bool :=
  match v with
  | .num q => decide (q < 1) || !numberIsInteger v
  | _ => !numberIsInteger v

/-- The error Mongoose throws when a filter value cannot be cast to `ObjectId`.  Only its
name is observed by the controllers. -/
def castError : JsError := ⟨"CastError", "Cast to ObjectId failed"⟩

/-- The error thrown by reading a property of `null`. -/
def typeError : JsError := ⟨"TypeError", "Cannot read properties of null"⟩

/-- The error of a failed schema validation. -/
def validationError : JsError := ⟨"ValidationError", "Validation failed"⟩

/-- The filter of the reservation: `_id: eventId`, `"sections._id": sectionId` and
`"sections.remaining": \x7b $gte: qty \x7d`.  Each array predicate holds when SOME element
of `sections` satisfies it; the two need not be satisfied by the same element. -/
def reserveFilter (eid sid : ObjectId) (q : ℚ) (e : Event) : Bool :=
  e.id == eid && e.sections.any (fun s => s.id == sid)
    && e.sections.any (fun s => decide (q ≤ s.remaining))

/-- The array predicate that binds the positional operator. -/
def positionalPred (p : Positional) (sid : ObjectId) (q : ℚ) (s : Section) : Bool :=
  match p with
  | .byId => s.id == sid
  | .byRemaining => decide (q ≤ s.remaining)

/-- The update `$inc: \x7b "sections.$.remaining": d \x7d`: the first element satisfying the
binding predicate has `d` added to `remaining`, the sum rounded to a double. -/
def incFirst (p : Section → Bool) (d : ℚ) : List Section → List Section
  | [] => []
  | s :: rest =>
    if p s then { s with remaining := toDouble (s.remaining + d) } :: rest
    else s :: incFirst p d rest

/-- Apply `f` to the first document satisfying `p`; the updated document and the new
collection, or `none` when no document matches. -/
def updateOne (p : Event → Bool) (f : Event → Event) : List Event → Option (Event × List Event)
  | [] => none
  | e :: rest =>
    if p e then some (f e, f e :: rest)
    else (updateOne p f rest).map (fun r => (r.1, e :: r.2))

/-- The call `Event.findOneAndUpdate(filter, update, \x7b new: true \x7d)` of lines 25-37:
cast the two ids, then in one atomic step find the first matching event, decrement and
return the updated document (`none` is `null`). -/
def findOneAndUpdate (d : Driver) (amb : Ambient) (st : Store) (eventId sectionId : JsVal)
    (q : ℚ) : Except JsError (Option Event) × Store :=
  match d.castObjectId eventId, d.castObjectId sectionId with
  | some eid, some sid =>
    match amb.fault .findOneAndUpdate with
    | some err => (.error err, st)
    | none =>
      match updateOne (reserveFilter eid sid q)
          (fun e => { e with sections := incFirst (positionalPred d.positional sid q) (-q) e.sections })
          st.events with
      | none => (.ok none, st)
      | some (doc, evs) => (.ok (some doc), { st with events := evs })
  | _, _ => (.error castError, st)

/-- The call `Event.findById(id)`. -/
def findById (d : Driver) (amb : Ambient) (st : Store) (id : JsVal) :
    Except JsError (Option Event) :=
  match d.castObjectId id with
  | none => .error castError
  | some eid =>
    match amb.fault .findById with
    | some err => .error err
    | none => .ok (st.events.find? (fun e => e.id == eid))

/-- The method `sections.id(sectionId)` of a Mongoose document array: the first element
with that id, `null` when there is none or the id cannot be cast. -/
def sectionsId (d : Driver) (secs : List Section) (sectionId : JsVal) : Option Section :=
  match d.castObjectId sectionId with
  | none => none
  | some sid => secs.find? (fun s => s.id == sid)

/-- The call `Booking.create(\x7b eventId, sectionId, qty \x7d)`: cast and validate against
`bookingSchema` (`qty` at least 1), then insert with a fresh id and `createdAt = Date.now`. -/
def bookingCreate (d : Driver) (amb : Ambient) (st : Store) (eventId sectionId : JsVal)
    (q : ℚ) : Except JsError Booking × Store :=
  match d.castObjectId eventId, d.castObjectId sectionId with
  | some eid, some sid =>
    if q < 1 then (.error validationError, st)
    else
      match amb.fault .bookingCreate with
      | some err => (.error err, st)
      | none =>
        let b : Booking := ⟨st.nextId, eid, sid, q, amb.now⟩
        (.ok b, { st with bookings := st.bookings ++ [b], nextId := st.nextId + 1 })
  | _, _ => (.error validationError, st)

/-- Lines 39-62, the diagnosis after a reservation that did not match. -/
def diagnose (d : Driver) (amb : Ambient) (st : Store) (eventId sectionId : JsVal) (q : ℚ) :
    Except JsError Response :=
  match findById d amb st eventId with
  | .error e => .error e
  | .ok none => .ok (failure 404 (.text "Event not found"))
  | .ok (some event) =>
    match sectionsId d event.sections sectionId with
    | none => .ok (failure 404 (.text "Section not found in this event"))
    | some sec => .ok (failure 400 (.notEnoughSeats q sec.remaining))

/-- Lines 25-80: the body of the `try` block once the request is validated. -/
def createBookingTry (d : Driver) (amb : Ambient) (st : Store) (eventId sectionId : JsVal)
    (q : ℚ) : Except JsError Response × Store :=
  match findOneAndUpdate d amb st eventId sectionId q with
  | (.error e, st1) => (.error e, st1)
  | (.ok none, st1) => (diagnose d amb st1 eventId sectionId q, st1)
  | (.ok (some result), st1) =>
    match bookingCreate d amb st1 eventId sectionId q with
    | (.error e, st2) => (.error e, st2)
    | (.ok booking, st2) =>
      match sectionsId d result.sections sectionId with
      | none => (.error typeError, st2)
      | some sec =>
        (.ok ⟨201, true, .text "Booking created successfully", .booked booking sec.remaining⟩,
          st2)

/-- Lines 81-93: the `catch` block of `createBooking`. -/
def createBookingCatch (e : JsError) : Response :=
  if e.name = "CastError" then failure 400 (.text "Invalid ID format")
  else failure 500 (.text e.message)

/-- The handler `createBooking`: the response and the store after the request. -/
def createBooking (d : Driver) (amb : Ambient) (st : Store) (body : BookingBody) :
    Response × Store :=
  if !truthy body.eventId || !truthy body.sectionId || !truthy body.qty then
    (failure 400 (.text "eventId, sectionId, and qty are required"), st)
  else if qtyRejected body.qty then
    (failure 400 (.text "qty must be a positive integer"), st)
  else
    match body.qty with
    | .num q =>
      match createBookingTry d amb st body.eventId body.sectionId q with
      | (.ok r, st1) => (r, st1)
      | (.error e, st1) => (createBookingCatch e, st1)
    | _ => (failure 400 (.text "qty must be a positive integer"), st)

/-- What `createBooking` holds while it awaits its second storage call: the quantity and
either the document the reservation returned (`Booking.create` of line 64 is next) or
nothing, the reservation having returned `null` (`Event.findById` of line 40 is next). -/
inductive Awaiting where
  | commit (q : ℚ) (result : Event)
  | diagnose (q : ℚ)

/-- The handler `createBooking` up to its first `await` (lines 6-37): the validation and
the reservation.  It ends with a response, or awaiting the second storage call. -/
def createBookingReserve (d : Driver) (amb : Ambient) (st : Store) (body : BookingBody) :
    Sum Response Awaiting × Store :=
  if !truthy body.eventId || !truthy body.sectionId || !truthy body.qty then
    (.inl (failure 400 (.text "eventId, sectionId, and qty are required")), st)
  else if qtyRejected body.qty then
    (.inl (failure 400 (.text "qty must be a positive integer")), st)
  else
    match body.qty with
    | .num q =>
      match findOneAndUpdate d amb st body.eventId body.sectionId q with
      | (.error e, st1) => (.inl (createBookingCatch e), st1)
      | (.ok none, st1) => (.inr (.diagnose q), st1)
      | (.ok (some result), st1) => (.inr (.commit q result), st1)
    | _ => (.inl (failure 400 (.text "qty must be a positive integer")), st)

/-- The handler `createBooking` from its first `await` on (lines 39-93), run on the store
as it is by then. -/
def createBookingResume (d : Driver) (amb : Ambient) (st : Store) (body : BookingBody) :
    Awaiting → Response × Store
  | .diagnose q =>
    match diagnose d amb st body.eventId body.sectionId q with
    | .ok r => (r, st)
    | .error e => (createBookingCatch e, st)
  | .commit q result =>
    match bookingCreate d amb st body.eventId body.sectionId q with
    | (.error e, st2) => (createBookingCatch e, st2)
    | (.ok booking, st2) =>
      match sectionsId d result.sections body.sectionId with
      | none => (createBookingCatch typeError, st2)
      | some sec =>
        (⟨201, true, .text "Booking created successfully", .booked booking sec.remaining⟩,
          st2)

/-- The handler `getEvent` of `controllers/eventController.js`; the route parameter is a
string. -/
def getEvent (d : Driver) (amb : Ambient) (st : Store) (id : String) : Response :=
  match findById d amb st (.str id) with
  | .error e =>
    if e.name = "CastError" then failure 400 (.text "Invalid event ID format")
    else failure 500 (.text e.message)
  | .ok none => failure 404 (.text "Event not found")
  | .ok (some event) => ⟨200, true, .none, .event event⟩

/-- Insert a booking into a list kept newest first. -/
def insertNewestFirst (b : Booking) : List Booking → List Booking
  | [] => [b]
  | c :: rest =>
    if c.createdAt ≤ b.createdAt then b :: c :: rest else c :: insertNewestFirst b rest

/-- The cursor option `.sort(\x7b createdAt: -1 \x7d)`: descending by `createdAt`.  The order
among equal timestamps is the store's choice; the embedding fixes one. -/
def sortNewestFirst : List Booking → List Booking
  | [] => []
  | b :: rest => insertNewestFirst b (sortNewestFirst rest)

/-- The callback of `bookings.map` in `listBookings` (lines 108-120), applied to a booking
and its populated event. -/
def enrich (events : List Event) (b : Booking) : Entry :=
  match events.find? (fun e => e.id == b.eventId) with
  | none => ⟨b, none, .absent⟩
  | some event =>
    match event.sections.find? (fun s => s.id == b.sectionId) with
    | some sec => ⟨b, some event, .found sec⟩
    | none => ⟨b, some event, .null⟩

/-- The handler `listBookings`. -/
def listBookings (amb : Ambient) (st : Store) : Response :=
  match amb.fault .bookingFind with
  | some err => failure 500 (.text err.message)
  | none =>
    let enriched := (sortNewestFirst st.bookings).map (enrich st.events)
    ⟨200, true, .none, .listing enriched.length enriched⟩

/-- The error-handling middleware of `server.js` (lines 30-37). -/
def errorHandler (_err : JsError) : Response := failure 500 (.text "Internal server error")

/-! ## The event controller (`controllers/eventController.js`) -/

/-- The conversions that the source leaves to the JavaScript runtime and to Mongoose:
`Number(s)` of a string and `ToNumber` of an array or object (`none` is `NaN`),
`String(x)` of a number, and the Mongoose cast of an array or object to the schema type
`String` (`none` is a `CastError`). -/
structure Conversions where
  stringToNumber : String → Option ℚ
  numberToString : ℚ → String
  objectToNumber : Nat → Option ℚ
  objectToString : Nat → Option String

/-- The abstract operation `ToNumber` (`none` is `NaN`). -/
def toNumber (cv : Conversions) : JsVal → Option ℚ
  | .undefined => none
  | .null => some 0
  | .bool b => some (if b then 1 else 0)
  | .num q => some q
  | .str s => cv.stringToNumber s
  | .object ref => cv.objectToNumber ref

/-- The comparison `v < 1` of line 31. -/
def lessThanOne (cv : Conversions) (v : JsVal) : Bool :=
  match toNumber cv v with
  | some q => decide (q < 1)
  | none => false

/-- Mongoose cast to the schema type `Number`; `none` when the result is `null` or the cast
fails (either way the document does not validate: the path is required).  An array fails
the cast, and an object of a JSON body casts to `NaN`, which no `min` validator accepts. -/
def castNumber (cv : Conversions) : JsVal → Option ℚ
  | .undefined => none
  | .null => none
  | .bool b => some (if b then 1 else 0)
  | .num q => some q
  | .str s => if s = "" then none else cv.stringToNumber s
  | .object _ => none

/-- Mongoose cast to the schema type `String`; `none` when the result is `null` or the cast
fails. -/
def castString (cv : Conversions) : JsVal → Option String
  | .undefined => none
  | .null => none
  | .bool b => some (if b then "true" else "false")
  | .num q => some (cv.numberToString q)
  | .str s => some s
  | .object ref => cv.objectToString ref

/-- White space and line terminators of ECMAScript, removed by `String.prototype.trim`. -/
def jsWhitespace (c : Char) : Bool :=
  c.toNat ∈ [0x9, 0xA, 0xB, 0xC, 0xD, 0x20, 0xA0, 0x1680, 0x2028, 0x2029, 0x202F, 0x205F,
    0x3000, 0xFEFF] || (0x2000 ≤ c.toNat && c.toNat ≤ 0x200A)

/-- The setter `trim: true`. -/
def jsTrim (s : String) : String :=
  ⟨((s.data.dropWhile jsWhitespace).reverse.dropWhile jsWhitespace).reverse⟩

/-- An element of the `sections` array of a request: the three fields the handler reads,
and a client-supplied `remaining`, which it never reads. -/
structure SectionInput where
  name : JsVal
  price : JsVal
  capacity : JsVal
  remaining : JsVal

/-- The `sections` field of a request: falsy, truthy but no array, or an array whose
elements are objects (`some`) or `null` (`none`).  An element that is a primitive value
has no field: it is `some` with three `undefined`. -/
inductive SectionsField where
  | falsy
  | nonArray
  | array (xs : List (Option SectionInput))

/-- The body of `POST /events/create`. -/
structure EventBody where
  name : JsVal
  sections : SectionsField

/-- What the callback of `sections.map` returns (lines 34-39). -/
structure PreparedSection where
  name : JsVal
  price : JsVal
  capacity : JsVal
  remaining : JsVal

/-- The message of an error thrown inside `createEvent`. -/
inductive EventError where
  | missingFields (index : Nat)
  | capacityBelowOne (name : JsVal)
  | nullElement
  | validation
  | storage (e : JsError)

/-- The callback of `sections.map` (lines 25-40) on the element at `index`. -/
def prepareSection (cv : Conversions) (index : Nat) : Option SectionInput →
    Except EventError PreparedSection
  | none => .error .nullElement
  | some x =>
    if !truthy x.name || x.price == .undefined || !truthy x.capacity then
      .error (.missingFields index)
    else if lessThanOne cv x.capacity then .error (.capacityBelowOne x.name)
    else .ok ⟨x.name, x.price, x.capacity, x.capacity⟩

/-- The call `sections.map(...)`: the callback runs on the elements in order, from
`index`, and the first throw ends it. -/
def prepareSections (cv : Conversions) : Nat → List (Option SectionInput) →
    Except EventError (List PreparedSection)
  | _, [] => .ok []
  | index, x :: rest =>
    match prepareSection cv index x with
    | .error e => .error e
    | .ok p =>
      match prepareSections cv (index + 1) rest with
      | .error e => .error e
      | .ok ps => .ok (p :: ps)

/-- Cast and validation of one embedded section against `sectionSchema`: `name` a
non-empty string after trimming, `price` a number at least 0, `capacity` a number at
least 1, `remaining` a number at least 0.  The section gets the id `id`. -/
def validateSection (cv : Conversions) (id : ObjectId) (p : PreparedSection) : Option Section :=
  match castString cv p.name, castNumber cv p.price, castNumber cv p.capacity,
      castNumber cv p.remaining with
  | some n, some price, some capacity, some remaining =>
    if jsTrim n ≠ "" ∧ 0 ≤ price ∧ 1 ≤ capacity ∧ 0 ≤ remaining then
      some ⟨id, jsTrim n, price, capacity, remaining⟩
    else none
  | _, _, _, _ => none

/-- Validation of the embedded sections, which get consecutive ids from `id`. -/
def validateSections (cv : Conversions) : ObjectId → List PreparedSection → Option (List Section)
  | _, [] => some []
  | id, p :: rest =>
    match validateSection cv id p, validateSections cv (id + 1) rest with
    | some s, some ss => some (s :: ss)
    | _, _ => none

/-- The call `Event.create(\x7b name, sections \x7d)`: cast and validate against
`eventSchema` (a non-empty name, at least one section, every section valid), then insert
with fresh ids. -/
def eventCreate (cv : Conversions) (amb : Ambient) (st : Store) (name : JsVal)
    (ps : List PreparedSection) : Except EventError Event × Store :=
  match castString cv name, validateSections cv (st.nextId + 1) ps with
  | some n, some secs =>
    if jsTrim n ≠ "" ∧ 0 < secs.length then
      match amb.fault .eventCreate with
      | some err => (.error (.storage err), st)
      | none =>
        let event : Event := ⟨st.nextId, jsTrim n, secs⟩
        (.ok event, { st with events := st.events ++ [event],
                              nextId := st.nextId + 1 + secs.length })
    else (.error .validation, st)
  | _, _ => (.error .validation, st)

/-- The response of `createEvent`: status, and the created event on success.  The `catch`
block answers every error with 400 and the error's message. -/
inductive EventResponse where
  | created (event : Event)
  | rejected (reason : EventError)
  | required

/-- The status code of a response of `createEvent`. -/
def EventResponse.status : EventResponse → Nat
  | .created _ => 201
  | .rejected _ => 400
  | .required => 400

/-- The handler `createEvent`. -/
def createEvent (cv : Conversions) (amb : Ambient) (st : Store) (body : EventBody) :
    EventResponse × Store :=
  if !truthy body.name then (.required, st)
  else
    match body.sections with
    | .falsy => (.required, st)
    | .nonArray => (.required, st)
    | .array xs =>
      if xs.length = 0 then (.required, st)
      else
        match prepareSections cv 0 xs with
        | .error e => (.rejected e, st)
        | .ok ps =>
          match eventCreate cv amb st body.name ps with
          | (.error e, st1) => (.rejected e, st1)
          | (.ok event, st1) => (.created event, st1)

/-! ## Sequences of requests -/

/-- A state-changing request. -/
inductive Request where
  | createEvent (amb : Ambient) (body : EventBody)
  | createBooking (amb : Ambient) (body : BookingBody)

/-- The store after one request. -/
def step (d : Driver) (cv : Conversions) (st : Store) : Request → Store
  | .createEvent amb body => (createEvent cv amb st body).2
  | .createBooking amb body => (createBooking d amb st body).2

/-- The store after a sequence of requests. -/
def run (d : Driver) (cv : Conversions) (st : Store) (rs : List Request) : Store :=
  rs.foldl (step d cv) st

/-- A store that some sequence of requests produces from the empty store. -/
def Reachable (d : Driver) (cv : Conversions) (st : Store) : Prop :=
  ∃ rs, run d cv Store.empty rs = st

/-! ## Concurrent booking requests

Requests overlap at their `await`s only: each storage call is atomic, and between the
reservation of a request and its second storage call other requests may run theirs. -/

/-- A booking request between its reservation and its second storage call: its number
(the rank of its reservation), its surroundings, its body and what it holds. -/
structure InFlight where
  index : Nat
  amb : Ambient
  body : BookingBody
  awaiting : Awaiting

/-- The server and its store: the number of requests that have run their reservation,
the requests in flight, and the responses sent so far, each with the number of its
request. -/
structure Server where
  store : Store
  started : Nat
  inFlight : List InFlight
  responses : List (Nat × Response)

/-- One step of the server: a new request runs up to its reservation, or the request at
position `j` among those in flight runs to its end. -/
inductive Action where
  | arrive (amb : Ambient) (body : BookingBody)
  | resume (j : Nat)

/-- The arrivals among the actions. -/
def Action.isArrive : Action → Bool
  | .arrive _ _ => true
  | .resume _ => false

/-- The server after one action.  Resuming at a position where no request is in flight
changes nothing. -/
def Server.step (d : Driver) (sv : Server) : Action → Server
  | .arrive amb body =>
    match createBookingReserve d amb sv.store body with
    | (.inl r, st) => ⟨st, sv.started + 1, sv.inFlight, sv.responses ++ [(sv.started, r)]⟩
    | (.inr a, st) =>
      ⟨st, sv.started + 1, sv.inFlight ++ [⟨sv.started, amb, body, a⟩], sv.responses⟩
  | .resume j =>
    match sv.inFlight[j]? with
    | none => sv
    | some f =>
      ⟨(createBookingResume d f.amb sv.store f.body f.awaiting).2, sv.started,
        sv.inFlight.eraseIdx j,
        sv.responses ++ [(f.index, (createBookingResume d f.amb sv.store f.body f.awaiting).1)]⟩

/-- The server after a sequence of actions. -/
def Server.run (d : Driver) (sv : Server) (acts : List Action) : Server :=
  acts.foldl (Server.step d) sv

/-- A server that has not served any request yet. -/
def Server.fresh (st : Store) : Server := ⟨st, 0, [], []⟩

/-! ## Quantities of the specification -/

/-- The sum of `qty` over the stored bookings that reference section `sid` of event
`eid`. -/
def bookedQty (st : Store) (eid sid : ObjectId) : ℚ :=
  ((st.bookings.filter (fun b => b.eventId == eid && b.sectionId == sid)).map
    (fun b => b.qty)).sum

/-- Conservation: in every section, `capacity - remaining` is the booked quantity. -/
def Conservation (st : Store) : Prop :=
  ∀ e ∈ st.events, ∀ s ∈ e.sections, s.capacity - s.remaining = bookedQty st e.id s.id

/-- No overselling: in every section, `remaining` is not negative and the booked quantity
does not exceed the capacity. -/
def NoOverselling (st : Store) : Prop :=
  ∀ e ∈ st.events, ∀ s ∈ e.sections, 0 ≤ s.remaining ∧ bookedQty st e.id s.id ≤ s.capacity

/-- The stored section `s` comes from the element `x` of the request: `x` is an object
with a truthy name; the stored name is its cast, trimmed and not empty; the stored price
is the cast of its price and at least 0; the stored capacity is the cast of its capacity
and at least 1; the stored `remaining` is the capacity. -/
def StoredFrom (cv : Conversions) (x : Option SectionInput) (s : Section) : Prop :=
  ∃ i n, x = some i ∧ truthy i.name = true ∧
    castString cv i.name = some n ∧ s.name = jsTrim n ∧ s.name ≠ "" ∧
    castNumber cv i.price = some s.price ∧ 0 ≤ s.price ∧
    castNumber cv i.capacity = some s.capacity ∧ 1 ≤ s.capacity ∧
    s.remaining = s.capacity

/-- The event `e`, whose only section is `s`, with `r` seats left in it. -/
def withSeats (e : Event) (s : Section) (r : ℚ) : Event :=
  ⟨e.id, e.name, [⟨s.id, s.name, s.price, s.capacity, r⟩]⟩

/-- The 201 response of `createBooking` (lines 73-80). -/
def bookingCreated (b : Booking) (remainingSeats : ℚ) : Response :=
  ⟨201, true, .text "Booking created successfully", .booked b remainingSeats⟩

/-- The state of a server that serves requests `body` for `q` seats of the only section
`s`, of `C` seats, of the event `e`, after `started` reservations: the section has lost
`q` seats for each of the first `C / q` reservations; a request in flight or answered
holds, or has been sent, what its rank entitles it to; every request is in flight or
answered, once; and a booking is stored for each request answered 201. -/
def SoleSectionInv (body : BookingBody) (pre post : List Event) (e : Event) (s : Section)
    (C q : ℕ) (booked : ℚ) (sv : Server) : Prop :=
  sv.store.events =
    pre ++ withSeats e s ((C : ℚ) - q * (min sv.started (C / q) : ℕ)) :: post ∧
  (∀ f ∈ sv.inFlight, f.index < sv.started ∧ f.body = body ∧
    (∀ site, f.amb.fault site = none) ∧
    ((f.index < C / q ∧
        f.awaiting = .commit q (withSeats e s ((C : ℚ) - q * (f.index + 1 : ℕ)))) ∨
      (C / q ≤ f.index ∧ f.awaiting = .diagnose q))) ∧
  (∀ p ∈ sv.responses, p.1 < sv.started ∧
    ((p.1 < C / q ∧ ∃ b, p.2 = bookingCreated b ((C : ℚ) - q * (p.1 + 1 : ℕ)) ∧
        b.eventId = e.id ∧ b.sectionId = s.id ∧ b.qty = q) ∨
      (C / q ≤ p.1 ∧
        p.2 = failure 400 (.notEnoughSeats q ((C : ℚ) - q * (C / q : ℕ)))))) ∧
  (sv.inFlight.map (fun f => f.index) ++ sv.responses.map (fun p => p.1)).Perm
    (List.range sv.started) ∧
  bookedQty sv.store e.id s.id =
    booked + q * (sv.responses.countP (fun p => decide (p.1 < C / q)) : ℕ)

/-- A value that is a positive integer number. -/
def IsPositiveInteger (v : JsVal) : Prop := ∃ n : ℕ, 0 < n ∧ v = .num n

/-! ## Worked inputs -/

/-- Digit value of a hexadecimal character. -/
def hexDigit (c : Char) : Option Nat :=
  if '0' ≤ c ∧ c ≤ '9' then some (c.toNat - 48)
  else if 'a' ≤ c ∧ c ≤ 'f' then some (c.toNat - 87)
  else if 'A' ≤ c ∧ c ≤ 'F' then some (c.toNat - 55)
  else none

/-- The cast used in the worked inputs: a string of 24 hexadecimal digits is the id it
denotes; nothing else is an id. -/
def hexCast : JsVal → Option ObjectId
  | .str s =>
    if s.length = 24 then
      s.data.foldl (fun acc c =>
        match acc, hexDigit c with
        | some a, some v => some (16 * a + v)
        | _, _ => none) (some 0)
    else none
  | _ => none

/-- An event with a one-seat section and a five-seat section. -/
def galaBody : EventBody :=
  ⟨.str "Gala", .array [some ⟨.str "Stalls", .num 40, .num 1, .undefined⟩,
    some ⟨.str "Balcony", .num 25, .num 5, .undefined⟩]⟩

/-- The event `galaBody` creates in the empty store. -/
def galaEvent : Event := ⟨0, "Gala", [⟨1, "Stalls", 40, 1, 1⟩, ⟨2, "Balcony", 25, 5, 5⟩]⟩

/-- The store after `galaBody`. -/
def galaStore : Store := ⟨[galaEvent], [], 3⟩

/-- The driver of the worked inputs, with the binding of the server. -/
def hexDriver : Driver := ⟨hexCast, .byRemaining⟩

/-- Six seats of the one-seat section of `galaEvent`. -/
def stallsSix : BookingBody :=
  ⟨.str "000000000000000000000000", .str "000000000000000000000001", .num 6⟩

/-- The store of the concurrency test after its event is created: one section of five
seats. -/
def raceStore : Store := ⟨[⟨0, "Concurrency Test Event", [⟨1, "Test Section", 100, 5, 5⟩]⟩], [], 2⟩

/-- The booking request of the concurrency test: one seat of the test section. -/
def raceBody : BookingBody :=
  ⟨.str "000000000000000000000000", .str "000000000000000000000001", .num 1⟩

/-- The ten requests of the concurrency test running concurrently: all ten reservations
run first, then the requests complete, the last to arrive first. -/
def raceActions : List Action :=
  (List.range 10).map (fun t => Action.arrive (Ambient.quiet t) raceBody) ++
    (List.range 10).reverse.map Action.resume

/-- A request for an event whose only section has `2 ^ 54` seats. -/
def vastBody : EventBody :=
  ⟨.str "Festival", .array [some ⟨.str "Field", .num 10, .num 18014398509481984, .undefined⟩]⟩

/-- The store after `vastBody`. -/
def vastStore : Store :=
  ⟨[⟨0, "Festival", [⟨1, "Field", 10, 18014398509481984, 18014398509481984⟩]⟩], [], 2⟩

/-- One request for one seat, from its arrival to its response. -/
def vastActions : List Action := [.arrive (Ambient.quiet 0) raceBody, .resume 0]

/-- Two seats of the one-seat section of `galaEvent`. -/
def stallsTwo : BookingBody :=
  ⟨.str "000000000000000000000000", .str "000000000000000000000001", .num 2⟩

/-- A request for an event whose section has capacity two and a half, and a
client-supplied `remaining` of 99. -/
def fractionalBody : EventBody :=
  ⟨.str "Gala", .array [some ⟨.str "Stalls", .num 40, .num (5 / 2), .num 99⟩]⟩

/-- A ledger whose only booking references an event that is not in the store. -/
def orphanStore : Store := ⟨[], [⟨0, 7, 8, 1, 0⟩], 1⟩

/-- A request during which every storage call raises `e`. -/
def Ambient.failing (now : Nat) (e : JsError) : Ambient := ⟨now, fun _ => some e⟩

/-- An error of the driver: the server refuses the connection. -/
def refusedError : JsError := ⟨"MongoNetworkError", "connect ECONNREFUSED 127.0.0.1:27017"⟩

/-- Another error of the driver: the server is not reached in time. -/
def selectionError : JsError :=
  ⟨"MongoServerSelectionError", "Server selection timed out after 30000 ms"⟩

/-- The two requests that lead to `galaAfter`. -/
def galaRequests : List Request :=
  [.createEvent (Ambient.quiet 0) galaBody, .createBooking (Ambient.quiet 1) stallsTwo]

/-- The store after `galaRequests` when the positional operator is bound by the predicate
on `remaining`: the two seats are taken from section 2, the booking names section 1. -/
def galaAfter : Store :=
  ⟨[⟨0, "Gala", [⟨1, "Stalls", 40, 1, 1⟩, ⟨2, "Balcony", 25, 5, 3⟩]⟩], [⟨3, 0, 1, 2, 1⟩], 4⟩

/-- The store after `galaRequests` when the positional operator is bound by the predicate
on the section id: section 1 is left with minus one seat. -/
def galaAfterById : Store :=
  ⟨[⟨0, "Gala", [⟨1, "Stalls", 40, 1, -1⟩, ⟨2, "Balcony", 25, 5, 5⟩]⟩], [⟨3, 0, 1, 2, 1⟩], 4⟩

/-! ## Validation of a booking request -/

theorem qtyRejected_eq_false_iff (v : JsVal) :
    qtyRejected v = false ↔ IsPositiveInteger v := by
  constructor
  · intro h
    cases v with
    | num q =>
      simp only [qtyRejected, numberIsInteger, Bool.or_eq_false_iff, decide_eq_false_iff_not,
        Bool.not_eq_false', beq_iff_eq, not_lt] at h
      obtain ⟨h1, h2⟩ := h
      have hq : ((q.num : ℤ) : ℚ) = q := Rat.coe_int_num_of_den_eq_one h2
      have hpos : (1 : ℤ) ≤ q.num := by
        have : ((1 : ℤ) : ℚ) ≤ ((q.num : ℤ) : ℚ) := by rw [hq]; simpa using h1
        exact_mod_cast this
      refine ⟨q.num.toNat, by omega, ?_⟩
      congr 1
      rw [← hq]
      have : ((q.num.toNat : ℤ)) = q.num := Int.toNat_of_nonneg (by omega)
      exact_mod_cast this.symm
    | undefined => simp [qtyRejected, numberIsInteger] at h
    | null => simp [qtyRejected, numberIsInteger] at h
    | bool b => simp [qtyRejected, numberIsInteger] at h
    | str s => simp [qtyRejected, numberIsInteger] at h
    | object ref => simp [qtyRejected, numberIsInteger] at h
  · rintro ⟨n, hn, rfl⟩
    have h1 : ¬ ((n : ℚ) < 1) := by
      have : (1 : ℚ) ≤ n := by exact_mod_cast hn
      linarith
    simp [qtyRejected, numberIsInteger, h1]

theorem truthy_of_isPositiveInteger (v : JsVal) (h : IsPositiveInteger v) : truthy v = true := by
  obtain ⟨n, hn, rfl⟩ := h
  have : (n : ℚ) ≠ 0 := by exact_mod_cast (by omega : n ≠ 0)
  simp [truthy, this]

/-- Claim C5.  A booking request whose `eventId` or `sectionId` is missing (or otherwise
falsy), or whose `qty` is not a positive integer number, is answered 400; the store is
unchanged, and the response is the same whatever the store holds and whatever the storage
calls would have done: no storage call is made. -/
theorem createBooking_invalid_request (d : Driver) (amb : Ambient) (st : Store)
    (body : BookingBody)
    (h : truthy body.eventId = false ∨ truthy body.sectionId = false ∨
      ¬ IsPositiveInteger body.qty) :
    (createBooking d amb st body).1.status = 400 ∧
    (createBooking d amb st body).2 = st ∧
    ∀ (amb1 : Ambient) (st1 : Store),
      (createBooking d amb1 st1 body).1 = (createBooking d amb st body).1 ∧
      (createBooking d amb1 st1 body).2 = st1 := by
  by_cases hv : (!truthy body.eventId || !truthy body.sectionId || !truthy body.qty) = true
  · simp [createBooking, hv, failure]
  · have hr : qtyRejected body.qty = true := by
      rcases h with h | h | h
      · simp [h] at hv
      · simp [h] at hv
      · by_contra hc
        exact h ((qtyRejected_eq_false_iff _).1 (by simpa using hc))
    simp [createBooking, hv, hr, failure]

/-- Witness of C5 at the numeric string `"2"` as quantity. -/
theorem createBooking_invalid_request_witness :
    ¬ IsPositiveInteger (.str "2") ∧
    (createBooking ⟨hexCast, .byRemaining⟩ (Ambient.quiet 7) galaStore
        ⟨.str "000000000000000000000000", .str "000000000000000000000001", .str "2"⟩).1.status
      = 400 ∧
    (createBooking ⟨hexCast, .byRemaining⟩ (Ambient.quiet 7) galaStore
        ⟨.str "000000000000000000000000", .str "000000000000000000000001", .str "2"⟩).2
      = galaStore :=
  have h := createBooking_invalid_request ⟨hexCast, .byRemaining⟩ (Ambient.quiet 7) galaStore
    ⟨.str "000000000000000000000000", .str "000000000000000000000001", .str "2"⟩
    (Or.inr (Or.inr (by rintro ⟨n, _, hn⟩; cases hn)))
  ⟨(by rintro ⟨n, _, hn⟩; cases hn), h.1, h.2.1⟩

/-! ## The reservation that does not match -/

theorem updateOne_eq_none_iff (p : Event → Bool) (f : Event → Event) (l : List Event) :
    updateOne p f l = none ↔ ∀ e ∈ l, p e = false := by
  induction l with
  | nil => simp [updateOne]
  | cons a l ih =>
    by_cases ha : p a = true
    · simp [updateOne, ha]
    · simp [updateOne, ha, ih]

theorem findOneAndUpdate_no_match {d : Driver} {amb : Ambient} {st : Store}
    {eventId sectionId : JsVal} {q : ℚ} {eid sid : ObjectId}
    (hce : d.castObjectId eventId = some eid) (hcs : d.castObjectId sectionId = some sid)
    (h : (findOneAndUpdate d amb st eventId sectionId q).1 = .ok none) :
    findOneAndUpdate d amb st eventId sectionId q = (.ok none, st) ∧
      ∀ e ∈ st.events, reserveFilter eid sid q e = false := by
  unfold findOneAndUpdate at h ⊢
  simp only [hce, hcs] at h ⊢
  cases hf : amb.fault .findOneAndUpdate with
  | some err => simp [hf] at h
  | none =>
    simp only [hf] at h ⊢
    cases hu : updateOne (reserveFilter eid sid q)
        (fun e => { e with sections := incFirst (positionalPred d.positional sid q) (-q) e.sections })
        st.events with
    | none => exact ⟨by simp, (updateOne_eq_none_iff _ _ _).1 hu⟩
    | some r => simp [hu] at h

/-- Claim C6.  A validated booking request whose conditional reserve does not match leaves
the store unchanged and is classified: 404 "Event not found" when no event has the id;
404 "Section not found in this event" when the event found has no section with the id;
otherwise 400 reporting the requested quantity and the remaining seats of the section
found, which are fewer than requested. -/
theorem createBooking_diagnosis (d : Driver) (amb : Ambient) (st : Store) (body : BookingBody)
    (eid sid : ObjectId) (q : ℚ)
    (he : truthy body.eventId = true) (hs : truthy body.sectionId = true)
    (hq : body.qty = .num q) (hpos : IsPositiveInteger body.qty)
    (hce : d.castObjectId body.eventId = some eid)
    (hcs : d.castObjectId body.sectionId = some sid)
    (hquiet : ∀ site, amb.fault site = none)
    (hno : (findOneAndUpdate d amb st body.eventId body.sectionId q).1 = .ok none) :
    (createBooking d amb st body).2 = st ∧
    (((∀ e ∈ st.events, e.id ≠ eid) ∧
        (createBooking d amb st body).1 = failure 404 (.text "Event not found")) ∨
      (∃ e, st.events.find? (fun e => e.id == eid) = some e ∧
        (∀ s ∈ e.sections, s.id ≠ sid) ∧
        (createBooking d amb st body).1 =
          failure 404 (.text "Section not found in this event")) ∨
      (∃ e s, st.events.find? (fun e => e.id == eid) = some e ∧
        e.sections.find? (fun s => s.id == sid) = some s ∧
        s.remaining < q ∧
        (createBooking d amb st body).1 = failure 400 (.notEnoughSeats q s.remaining))) := by
  obtain ⟨hfo, hall⟩ := findOneAndUpdate_no_match hce hcs hno
  have hrej : qtyRejected body.qty = false := (qtyRejected_eq_false_iff _).2 hpos
  have htq : truthy body.qty = true := truthy_of_isPositiveInteger _ hpos
  have hcb : createBooking d amb st body =
      (match diagnose d amb st body.eventId body.sectionId q with
        | .ok r => r
        | .error e => createBookingCatch e, st) := by
    simp only [createBooking, he, hs, htq, hrej, createBookingTry]
    rw [hq]
    simp only [hfo]
    cases diagnose d amb st body.eventId body.sectionId q <;> simp
  rw [hcb]
  refine ⟨rfl, ?_⟩
  simp only [diagnose, findById, hce, hquiet, sectionsId, hcs]
  cases hfe : st.events.find? (fun e => e.id == eid) with
  | none =>
    left
    refine ⟨?_, rfl⟩
    intro e hmem hid
    have := List.find?_eq_none.1 hfe e hmem
    simp [hid] at this
  | some e =>
    right
    have hmem : e ∈ st.events := List.mem_of_find?_eq_some hfe
    have hid : e.id = eid := by simpa using List.find?_some hfe
    cases hfs : e.sections.find? (fun s => s.id == sid) with
    | none =>
      left
      refine ⟨e, rfl, ?_, by simp [hfs]⟩
      intro s hsm hsid
      have := List.find?_eq_none.1 hfs s hsm
      simp [hsid] at this
    | some s =>
      right
      have hsm : s ∈ e.sections := List.mem_of_find?_eq_some hfs
      have hsid : s.id = sid := by simpa using List.find?_some hfs
      refine ⟨e, s, rfl, hfs, ?_, by simp [hfs]⟩
      have hf := hall e hmem
      simp only [reserveFilter, hid, beq_self_eq_true, Bool.true_and, Bool.and_eq_false_iff] at hf
      rcases hf with hf | hf
      · have := List.any_eq_false.1 hf s hsm
        simp [hsid] at this
      · have := List.any_eq_false.1 hf s hsm
        simpa using this

/-- Witness of C6: six seats of a section with one seat left, no section having six. -/
theorem createBooking_diagnosis_witness :
    (createBooking hexDriver (Ambient.quiet 7) galaStore stallsSix).2 = galaStore ∧
    (((∀ e ∈ galaStore.events, e.id ≠ 0) ∧
        (createBooking hexDriver (Ambient.quiet 7) galaStore stallsSix).1 =
          failure 404 (.text "Event not found")) ∨
      (∃ e, galaStore.events.find? (fun e => e.id == 0) = some e ∧
        (∀ s ∈ e.sections, s.id ≠ 1) ∧
        (createBooking hexDriver (Ambient.quiet 7) galaStore stallsSix).1 =
          failure 404 (.text "Section not found in this event")) ∨
      (∃ e s, galaStore.events.find? (fun e => e.id == 0) = some e ∧
        e.sections.find? (fun s => s.id == 1) = some s ∧
        s.remaining < 6 ∧
        (createBooking hexDriver (Ambient.quiet 7) galaStore stallsSix).1 =
          failure 400 (.notEnoughSeats 6 s.remaining))) :=
  createBooking_diagnosis hexDriver (Ambient.quiet 7) galaStore stallsSix 0 1 6
    (by decide) (by decide) rfl ⟨6, by decide, by simp [stallsSix]⟩ (by decide) (by decide)
    (fun _ => rfl) (by rfl)

/-! ## Requests against an event with a single section -/

theorem updateOne_append_hit (p : Event → Bool) (f : Event → Event) (pre post : List Event)
    (e : Event) (hpre : ∀ x ∈ pre, p x = false) (he : p e = true) :
    updateOne p f (pre ++ e :: post) = some (f e, pre ++ f e :: post) := by
  induction pre with
  | nil => simp [updateOne, he]
  | cons a l ih =>
    have ha : p a = false := hpre a (List.mem_cons_self _ _)
    have hl : ∀ x ∈ l, p x = false := fun x hx => hpre x (List.mem_cons_of_mem _ hx)
    simp [updateOne, ha, ih hl]

theorem find?_append_hit (p : Event → Bool) (pre post : List Event) (e : Event)
    (hpre : ∀ x ∈ pre, p x = false) (he : p e = true) :
    (pre ++ e :: post).find? p = some e := by
  induction pre with
  | nil => simp [he]
  | cons a l ih =>
    have ha : p a = false := hpre a (List.mem_cons_self _ _)
    have hl : ∀ x ∈ l, p x = false := fun x hx => hpre x (List.mem_cons_of_mem _ hx)
    simp [List.find?_cons, ha, ih hl]

theorem reserveFilter_of_id_ne {eid sid : ObjectId} {q : ℚ} {x : Event} (h : x.id ≠ eid) :
    reserveFilter eid sid q x = false := by
  simp [reserveFilter, h]

theorem bookedQty_snoc (evs evs1 : List Event) (bs : List Booking) (n n1 : Nat) (b : Booking)
    (eid sid : ObjectId) :
    bookedQty ⟨evs1, bs ++ [b], n1⟩ eid sid =
      bookedQty ⟨evs, bs, n⟩ eid sid +
        (if b.eventId = eid ∧ b.sectionId = sid then b.qty else 0) := by
  unfold bookedQty
  by_cases h : b.eventId = eid ∧ b.sectionId = sid
  · simp [List.filter_append, List.filter_cons, h]
  · have h2 : (b.eventId == eid && b.sectionId == sid) = false := by
      rw [Bool.eq_false_iff]
      intro hc
      simp only [Bool.and_eq_true, beq_iff_eq] at hc
      exact h hc
    simp [List.filter_append, List.filter_cons, h, h2]

/-! ## The reservation filter on an event with several sections

The filter of `findOneAndUpdate` asks for a section with the requested id and for a section
with enough seats, not for one section with both (there is no `$elemMatch`).  The
following evaluations start from `galaStore`: section 1 ("Stalls") has one seat, section 2
("Balcony") has five, and the request asks for two seats of section 1. -/

theorem createEvent_gala (cv : Conversions) (t : Nat) :
    createEvent cv (Ambient.quiet t) Store.empty galaBody = (.created galaEvent, galaStore) := by
  rfl

theorem createBooking_stallsTwo :
    createBooking hexDriver (Ambient.quiet 1) galaStore stallsTwo =
      (⟨201, true, .text "Booking created successfully", .booked ⟨3, 0, 1, 2, 1⟩ 1⟩,
        galaAfter) := by
  decide!

theorem createBooking_stallsTwo_byId :
    createBooking ⟨hexCast, .byId⟩ (Ambient.quiet 1) galaStore stallsTwo =
      (⟨201, true, .text "Booking created successfully", .booked ⟨3, 0, 1, 2, 1⟩ (-1)⟩,
        galaAfterById) := by
  decide!

theorem run_galaRequests (cv : Conversions) :
    run hexDriver cv Store.empty galaRequests = galaAfter := by
  have h : run hexDriver cv Store.empty galaRequests =
      (createBooking hexDriver (Ambient.quiet 1)
        (createEvent cv (Ambient.quiet 0) Store.empty galaBody).2 stallsTwo).2 := rfl
  rw [h, createEvent_gala, createBooking_stallsTwo]

theorem run_galaRequests_byId (cv : Conversions) :
    run ⟨hexCast, .byId⟩ cv Store.empty galaRequests = galaAfterById := by
  have h : run ⟨hexCast, .byId⟩ cv Store.empty galaRequests =
      (createBooking ⟨hexCast, .byId⟩ (Ambient.quiet 1)
        (createEvent cv (Ambient.quiet 0) Store.empty galaBody).2 stallsTwo).2 := rfl
  rw [h, createEvent_gala, createBooking_stallsTwo_byId]

theorem updateOne_eq_some (p : Event → Bool) (f : Event → Event) :
    ∀ (l : List Event) (r : Event × List Event), updateOne p f l = some r →
      ∃ e ∈ l, p e = true ∧ r.1 = f e := by
  intro l
  induction l with
  | nil => intro r h; simp [updateOne] at h
  | cons a rest ih =>
    intro r h
    by_cases ha : p a = true
    · simp only [updateOne, ha, if_true, Option.some.injEq] at h
      exact ⟨a, List.mem_cons_self _ _, ha, by rw [← h]⟩
    · simp only [updateOne, ha, Bool.false_eq_true, if_false, Option.map_eq_some'] at h
      obtain ⟨r1, hr1, hr⟩ := h
      obtain ⟨e, he, hpe, hfe⟩ := ih r1 hr1
      exact ⟨e, List.mem_cons_of_mem _ he, hpe, by rw [← hr]; exact hfe⟩

theorem incFirst_any_id (p : Section → Bool) (d : ℚ) (sid : ObjectId) (l : List Section) :
    (incFirst p d l).any (fun s => s.id == sid) = l.any (fun s => s.id == sid) := by
  induction l with
  | nil => rfl
  | cons a rest ih =>
    by_cases ha : p a = true
    · simp [incFirst, ha]
    · simp [incFirst, ha, ih]

/-- What makes a booking request succeed.  A validated request, served without storage
error, is answered 201 exactly when some event with the requested id has a section with
the requested id and has a section, the same or another, with at least `q` seats left. -/
theorem createBooking_succeeds_iff (d : Driver) (amb : Ambient) (st : Store)
    (body : BookingBody) (eid sid : ObjectId) (q : ℚ)
    (he : truthy body.eventId = true) (hs : truthy body.sectionId = true)
    (hq : body.qty = .num q) (hpos : IsPositiveInteger body.qty)
    (hce : d.castObjectId body.eventId = some eid)
    (hcs : d.castObjectId body.sectionId = some sid)
    (hquiet : ∀ site, amb.fault site = none) :
    (createBooking d amb st body).1.status = 201 ↔
      ∃ e ∈ st.events, e.id = eid ∧ (∃ s ∈ e.sections, s.id = sid) ∧
        ∃ s ∈ e.sections, q ≤ s.remaining := by
  have hrej : qtyRejected body.qty = false := (qtyRejected_eq_false_iff _).2 hpos
  have htq : truthy body.qty = true := truthy_of_isPositiveInteger _ hpos
  have hq1 : ¬ q < 1 := by
    obtain ⟨n, hn, hv⟩ := hpos
    rw [hq] at hv
    injection hv with hv
    rw [hv]
    have : (1 : ℚ) ≤ n := by exact_mod_cast hn
    linarith
  have hfilter : ∀ e : Event, reserveFilter eid sid q e = true ↔
      (e.id = eid ∧ (∃ s ∈ e.sections, s.id = sid) ∧ ∃ s ∈ e.sections, q ≤ s.remaining) := by
    intro e
    simp [reserveFilter, and_assoc]
  simp only [createBooking, he, hs, htq, hrej, createBookingTry]
  rw [hq]
  simp only [findOneAndUpdate, hce, hcs, hquiet]
  cases hu : updateOne (reserveFilter eid sid q)
      (fun e => { e with sections := incFirst (positionalPred d.positional sid q) (-q) e.sections })
      st.events with
  | none =>
    have hall := (updateOne_eq_none_iff _ _ _).1 hu
    have hrhs : ¬ ∃ e ∈ st.events, e.id = eid ∧ (∃ s ∈ e.sections, s.id = sid) ∧
        ∃ s ∈ e.sections, q ≤ s.remaining := by
      rintro ⟨e, hmem, h⟩
      have h1 := (hfilter e).2 h
      rw [hall e hmem] at h1
      cases h1
    simp only [diagnose, findById, hce, hquiet, sectionsId, hcs]
    constructor
    · intro h
      exfalso
      cases hf : st.events.find? (fun e => e.id == eid) with
      | none => simp [hf, failure] at h
      | some ev =>
        cases hf2 : ev.sections.find? (fun s => s.id == sid) with
        | none => simp [hf, hf2, failure] at h
        | some sec => simp [hf, hf2, failure] at h
    · intro h
      exact absurd h hrhs
  | some r =>
    obtain ⟨doc, evs⟩ := r
    obtain ⟨e, hmem, hpe, hdoc⟩ := updateOne_eq_some _ _ _ _ hu
    simp only at hdoc
    have hany : doc.sections.any (fun s => s.id == sid) = true := by
      rw [hdoc]
      simp only [incFirst_any_id]
      simp only [reserveFilter, Bool.and_eq_true] at hpe
      exact hpe.1.2
    have hfind : ∃ sec, doc.sections.find? (fun s => s.id == sid) = some sec := by
      cases hf : doc.sections.find? (fun s => s.id == sid) with
      | some sec => exact ⟨sec, rfl⟩
      | none =>
        have hn := List.find?_eq_none.1 hf
        obtain ⟨x, hx, hxs⟩ := List.any_eq_true.1 hany
        exact absurd hxs (hn x hx)
    obtain ⟨sec, hsec⟩ := hfind
    simp only [bookingCreate, hce, hcs, hq1, if_false, hquiet, sectionsId, hsec]
    constructor
    · intro _
      exact ⟨e, hmem, (hfilter e).1 hpe⟩
    · intro _
      rfl

/-- Claim C1 at a failing input.  In `galaStore`, which `createEvent` produces from the
empty store, no section with id 1 has two seats left, yet the request for two seats of
section 1 is answered 201, under either binding of the positional operator: section 2 has
five seats and satisfies the predicate on `remaining`. -/
theorem createBooking_succeeds_on_other_section :
    (∀ cv : Conversions,
      (createEvent cv (Ambient.quiet 0) Store.empty galaBody).2 = galaStore) ∧
    (¬ ∃ e ∈ galaStore.events, e.id = 0 ∧ ∃ s ∈ e.sections, s.id = 1 ∧ (2 : ℚ) ≤ s.remaining) ∧
    (createBooking ⟨hexCast, .byRemaining⟩ (Ambient.quiet 1) galaStore stallsTwo).1.status = 201 ∧
    (createBooking ⟨hexCast, .byId⟩ (Ambient.quiet 1) galaStore stallsTwo).1.status = 201 := by
  refine ⟨fun cv => by rw [createEvent_gala], by decide, by decide, by decide⟩

/-- Claim C2 at a failing input.  After one `createEvent` and one `createBooking` the store
`galaAfter` is reached, in which section 1 has capacity 1 and one seat left while a booking
of two seats references it: `capacity - remaining` is 0 and the booked quantity is 2. -/
theorem conservation_fails_after_booking (cv : Conversions) :
    Reachable hexDriver cv galaAfter ∧ ¬ Conservation galaAfter := by
  refine ⟨⟨galaRequests, run_galaRequests cv⟩, ?_⟩
  intro h
  have h1 := h ⟨0, "Gala", [⟨1, "Stalls", 40, 1, 1⟩, ⟨2, "Balcony", 25, 5, 3⟩]⟩
    (by simp [galaAfter]) ⟨1, "Stalls", 40, 1, 1⟩ (by simp)
  norm_num [bookedQty, galaAfter] at h1

/-- Claim C3 at a failing input.  Under either binding of the positional operator, one
`createEvent` and one `createBooking` reach a store that oversells section 1: two seats
are booked against a capacity of one (and bound by the section id, one seat is left
negative). -/
theorem overselling_after_booking (cv : Conversions) :
    (Reachable ⟨hexCast, .byRemaining⟩ cv galaAfter ∧ ¬ NoOverselling galaAfter) ∧
    (Reachable ⟨hexCast, .byId⟩ cv galaAfterById ∧ ¬ NoOverselling galaAfterById) := by
  refine ⟨⟨⟨galaRequests, run_galaRequests cv⟩, ?_⟩,
    ⟨⟨galaRequests, run_galaRequests_byId cv⟩, ?_⟩⟩
  · intro h
    have h1 := (h ⟨0, "Gala", [⟨1, "Stalls", 40, 1, 1⟩, ⟨2, "Balcony", 25, 5, 3⟩]⟩
      (by simp [galaAfter]) ⟨1, "Stalls", 40, 1, 1⟩ (by simp)).2
    norm_num [bookedQty, galaAfter] at h1
  · intro h
    have h1 := (h ⟨0, "Gala", [⟨1, "Stalls", 40, 1, -1⟩, ⟨2, "Balcony", 25, 5, 5⟩]⟩
      (by simp [galaAfterById]) ⟨1, "Stalls", 40, 1, -1⟩ (by simp)).1
    norm_num at h1

/-- Claim C4 at a failing input.  The request for two seats of section 1 of `galaStore` is
answered 201 with `remainingSeats` 1; section 1, the section requested, keeps its one seat
(it is not decremented by 2), and section 2, which was not requested, goes from five seats
to three. -/
theorem createBooking_decrements_other_section :
    (createBooking hexDriver (Ambient.quiet 1) galaStore stallsTwo).1 =
      ⟨201, true, .text "Booking created successfully", .booked ⟨3, 0, 1, 2, 1⟩ 1⟩ ∧
    galaStore.events = [⟨0, "Gala", [⟨1, "Stalls", 40, 1, 1⟩, ⟨2, "Balcony", 25, 5, 5⟩]⟩] ∧
    (createBooking hexDriver (Ambient.quiet 1) galaStore stallsTwo).2.events =
      [⟨0, "Gala", [⟨1, "Stalls", 40, 1, 1⟩, ⟨2, "Balcony", 25, 5, 3⟩]⟩] ∧
    (createBooking hexDriver (Ambient.quiet 1) galaStore stallsTwo).2.bookings =
      [⟨3, 0, 1, 2, 1⟩] := by
  refine ⟨by decide!, rfl, by decide!, by decide!⟩

/-! ## Event creation -/

theorem prepare_validate_storedFrom (cv : Conversions) :
    ∀ (xs : List (Option SectionInput)) (k : Nat) (ps : List PreparedSection) (id : ObjectId)
      (ss : List Section),
      prepareSections cv k xs = .ok ps → validateSections cv id ps = some ss →
      List.Forall₂ (StoredFrom cv) xs ss := by
  intro xs
  induction xs with
  | nil =>
    intro k ps id ss hp hv
    simp only [prepareSections, Except.ok.injEq] at hp
    subst hp
    simp only [validateSections, Option.some.injEq] at hv
    subst hv
    exact List.Forall₂.nil
  | cons x rest ih =>
    intro k ps id ss hp hv
    simp only [prepareSections] at hp
    cases hx : prepareSection cv k x with
    | error e => simp [hx] at hp
    | ok p =>
      cases hr : prepareSections cv (k + 1) rest with
      | error e => simp [hx, hr] at hp
      | ok ps1 =>
        simp only [hx, hr, Except.ok.injEq] at hp
        subst hp
        simp only [validateSections] at hv
        cases hs : validateSection cv id p with
        | none => simp [hs] at hv
        | some s =>
          cases hss : validateSections cv (id + 1) ps1 with
          | none => simp [hs, hss] at hv
          | some ss1 =>
            simp only [hs, hss, Option.some.injEq] at hv
            subst hv
            refine List.Forall₂.cons ?_ (ih (k + 1) ps1 (id + 1) ss1 hr hss)
            -- the head
            cases x with
            | none => simp [prepareSection] at hx
            | some i =>
              simp only [prepareSection] at hx
              split at hx
              · simp at hx
              · rename_i hg
                split at hx
                · simp at hx
                · simp only [Except.ok.injEq] at hx
                  subst hx
                  simp only [Bool.or_eq_true, Bool.not_eq_true', not_or,
                    Bool.not_eq_false] at hg
                  simp only [validateSection] at hs
                  cases hn : castString cv i.name with
                  | none => simp [hn] at hs
                  | some n =>
                    cases hpr : castNumber cv i.price with
                    | none => simp [hn, hpr] at hs
                    | some price =>
                      cases hc : castNumber cv i.capacity with
                      | none => simp [hn, hpr, hc] at hs
                      | some cap =>
                        simp only [hn, hpr, hc] at hs
                        split at hs
                        · rename_i hok
                          simp only [Option.some.injEq] at hs
                          subst hs
                          exact ⟨i, n, rfl, hg.1.1, hn, rfl, hok.1, hpr, hok.2.1, hc,
                            hok.2.2.1, rfl⟩
                        · simp at hs

/-- Claim C8, amended.  `createEvent` either answers 400 and leaves the store unchanged, or
answers 201 and appends one event to the store; the latter only when the request has a
truthy name whose cast is not empty after trimming and a non-empty array of sections, each
an object with a non-empty name, a price that casts to a number at least 0 and a capacity
that casts to a number at least 1 (an integer is not required).  The stored sections are
those of the request in the same order and number, each with `remaining` equal to its
capacity, whatever `remaining` the client supplied. -/
theorem createEvent_outcome (cv : Conversions) (amb : Ambient) (st : Store) (body : EventBody) :
    ((createEvent cv amb st body).1.status = 400 ∧ (createEvent cv amb st body).2 = st) ∨
    (∃ xs ev, truthy body.name = true ∧ body.sections = .array xs ∧ xs ≠ [] ∧
      (createEvent cv amb st body).1 = .created ev ∧
      (createEvent cv amb st body).1.status = 201 ∧
      (createEvent cv amb st body).2 =
        ⟨st.events ++ [ev], st.bookings, st.nextId + 1 + xs.length⟩ ∧
      ev.name ≠ "" ∧ List.Forall₂ (StoredFrom cv) xs ev.sections) := by
  unfold createEvent
  by_cases hn : truthy body.name = true
  swap
  · left; simp [hn, EventResponse.status]
  cases hsec : body.sections with
  | falsy => left; simp [hn, EventResponse.status]
  | nonArray => left; simp [hn, EventResponse.status]
  | array xs =>
    by_cases hlen : xs.length = 0
    · left; simp [hn, hlen, EventResponse.status]
    cases hp : prepareSections cv 0 xs with
    | error e => left; simp [hn, hlen, hp, EventResponse.status]
    | ok ps =>
      simp only [hn, hlen, hp, eventCreate]
      cases hc : castString cv body.name with
      | none => left; simp [EventResponse.status]
      | some n =>
        cases hv : validateSections cv (st.nextId + 1) ps with
        | none => left; simp [EventResponse.status]
        | some secs =>
          by_cases hok : jsTrim n ≠ "" ∧ 0 < secs.length
          swap
          · left; simp [hok, EventResponse.status]
          cases hf : amb.fault .eventCreate with
          | some err => left; simp [hok, hf, EventResponse.status]
          | none =>
            right
            have hfa := prepare_validate_storedFrom cv xs 0 ps (st.nextId + 1) secs hp hv
            have hl : secs.length = xs.length := hfa.length_eq.symm
            have hpos : 0 < xs.length := Nat.pos_of_ne_zero hlen
            refine ⟨xs, ⟨st.nextId, jsTrim n, secs⟩, trivial, rfl, ?_, ?_, ?_, ?_, hok.1, hfa⟩
            · intro h; simp [h] at hlen
            · simp [hok, hf]
            · simp [hok, hf, EventResponse.status]
            · simp [hok, hf, hl, hpos]

/-- Counterexample to C8 as stated.  A section of capacity two and a half, which is no
integer, is accepted: the response is 201 and the event is stored with that capacity
(and the `remaining` of 99 the client supplied is replaced by the capacity). -/
theorem createEvent_fractional_capacity :
    numberIsInteger (.num (5 / 2)) = false ∧
    ∀ cv : Conversions,
      (createEvent cv (Ambient.quiet 0) Store.empty fractionalBody).1.status = 201 ∧
      (createEvent cv (Ambient.quiet 0) Store.empty fractionalBody).2 =
        ⟨[⟨0, "Gala", [⟨1, "Stalls", 40, 5 / 2, 5 / 2⟩]⟩], [], 2⟩ := by
  refine ⟨by decide!, fun cv => ?_⟩
  have h40 : (0 : ℚ) ≤ 40 := by norm_num
  have h52 : (1 : ℚ) ≤ 5 / 2 := by norm_num
  have h52b : (0 : ℚ) ≤ 5 / 2 := by norm_num
  have h52c : ¬ ((5 / 2 : ℚ) < 1) := by norm_num
  have h52d : ¬ ((5 / 2 : ℚ) = 0) := by norm_num
  have ht : jsTrim "Gala" = "Gala" := by decide
  have ht2 : jsTrim "Stalls" = "Stalls" := by decide
  simp [createEvent, fractionalBody, truthy, prepareSections, prepareSection, lessThanOne,
    toNumber, eventCreate, castString, validateSections, validateSection, castNumber,
    Ambient.quiet, Store.empty, EventResponse.status, h40, h52, h52b, h52c, h52d, ht, ht2]

/-! ## Listing the bookings -/

theorem insertNewestFirst_perm (b : Booking) (l : List Booking) :
    (insertNewestFirst b l).Perm (b :: l) := by
  induction l with
  | nil => simp [insertNewestFirst]
  | cons c rest ih =>
    simp only [insertNewestFirst]
    split
    · exact List.Perm.refl _
    · exact (List.Perm.cons c ih).trans (List.Perm.swap b c rest)

theorem sortNewestFirst_perm (l : List Booking) : (sortNewestFirst l).Perm l := by
  induction l with
  | nil => simp [sortNewestFirst]
  | cons b rest ih =>
    simp only [sortNewestFirst]
    exact (insertNewestFirst_perm b _).trans (List.Perm.cons b ih)

theorem insertNewestFirst_sorted (b : Booking) (l : List Booking)
    (h : l.Pairwise (fun a c => c.createdAt ≤ a.createdAt)) :
    (insertNewestFirst b l).Pairwise (fun a c => c.createdAt ≤ a.createdAt) := by
  induction l with
  | nil => simp [insertNewestFirst]
  | cons c rest ih =>
    obtain ⟨hc, hrest⟩ := List.pairwise_cons.1 h
    simp only [insertNewestFirst]
    split
    · rename_i hle
      refine List.pairwise_cons.2 ⟨?_, h⟩
      intro x hx
      rcases List.mem_cons.1 hx with hx | hx
      · rw [hx]; exact hle
      · exact le_trans (hc x hx) hle
    · rename_i hnle
      refine List.pairwise_cons.2 ⟨?_, ih hrest⟩
      intro x hx
      rcases List.mem_cons.1 ((insertNewestFirst_perm b rest).mem_iff.1 hx) with hx | hx
      · rw [hx]; omega
      · exact hc x hx

theorem sortNewestFirst_sorted (l : List Booking) :
    (sortNewestFirst l).Pairwise (fun a c => c.createdAt ≤ a.createdAt) := by
  induction l with
  | nil => simp [sortNewestFirst]
  | cons b rest ih => exact insertNewestFirst_sorted b _ ih

/-- Claim C9, amended.  When the query on the ledger succeeds, `listBookings` answers 200
with one entry per stored booking (`count` is their number), newest first.  An entry
whose event exists carries `sectionDetails`: the section of that event with the booking's
section id, or `null` when the event has no such section.  An entry whose event does not
exist carries no `sectionDetails` at all (its populated `eventId` is `null`); such a
booking does not make the listing fail. -/
theorem listBookings_listing (amb : Ambient) (st : Store)
    (hquiet : amb.fault .bookingFind = none) :
    ∃ entries, listBookings amb st = ⟨200, true, .none, .listing st.bookings.length entries⟩ ∧
      entries.length = st.bookings.length ∧
      (entries.map (fun x => x.booking)).Perm st.bookings ∧
      (entries.map (fun x => x.booking)).Pairwise (fun a c => c.createdAt ≤ a.createdAt) ∧
      ∀ x ∈ entries,
        x.event = st.events.find? (fun e => e.id == x.booking.eventId) ∧
        ((∀ e ∈ st.events, e.id ≠ x.booking.eventId) →
          x.event = none ∧ x.sectionDetails = .absent) ∧
        (∀ ev, x.event = some ev →
          ((∀ s ∈ ev.sections, s.id ≠ x.booking.sectionId) → x.sectionDetails = .null) ∧
          (∀ s, ev.sections.find? (fun s => s.id == x.booking.sectionId) = some s →
            x.sectionDetails = .found s)) := by
  have hb : ∀ (evs : List Event) (l : List Booking),
      (l.map (enrich evs)).map (fun x => x.booking) = l := by
    intro evs l
    induction l with
    | nil => rfl
    | cons b rest ih =>
      simp only [List.map_cons, ih]
      congr 1
      unfold enrich
      split
      · rfl
      · split <;> rfl
  have hlen : (sortNewestFirst st.bookings).length = st.bookings.length :=
    (sortNewestFirst_perm st.bookings).length_eq
  refine ⟨(sortNewestFirst st.bookings).map (enrich st.events), ?_, ?_, ?_, ?_, ?_⟩
  · simp [listBookings, hquiet, hlen]
  · simp [hlen]
  · rw [hb]; exact sortNewestFirst_perm _
  · rw [hb]; exact sortNewestFirst_sorted _
  · intro x hx
    obtain ⟨b, _, rfl⟩ := List.mem_map.1 hx
    cases hfe : st.events.find? (fun e => e.id == b.eventId) with
    | none =>
      have henr : enrich st.events b = ⟨b, none, .absent⟩ := by simp [enrich, hfe]
      rw [henr]
      dsimp only
      refine ⟨hfe.symm, fun _ => ⟨rfl, rfl⟩, ?_⟩
      intro ev hev
      cases hev
    | some event =>
      have hmem : event ∈ st.events := List.mem_of_find?_eq_some hfe
      have hid : event.id = b.eventId := by simpa using List.find?_some hfe
      cases hfs : event.sections.find? (fun s => s.id == b.sectionId) with
      | none =>
        have henr : enrich st.events b = ⟨b, some event, .null⟩ := by simp [enrich, hfe, hfs]
        rw [henr]
        dsimp only
        refine ⟨hfe.symm, fun hall => absurd hid (hall event hmem), ?_⟩
        intro ev hev
        cases hev
        refine ⟨fun _ => rfl, ?_⟩
        intro s hs
        rw [hfs] at hs
        cases hs
      | some sec =>
        have hsm : sec ∈ event.sections := List.mem_of_find?_eq_some hfs
        have hsid : sec.id = b.sectionId := by simpa using List.find?_some hfs
        have henr : enrich st.events b = ⟨b, some event, .found sec⟩ := by
          simp [enrich, hfe, hfs]
        rw [henr]
        dsimp only
        refine ⟨hfe.symm, fun hall => absurd hid (hall event hmem), ?_⟩
        intro ev hev
        cases hev
        refine ⟨fun hall => absurd hsid (hall sec hsm), ?_⟩
        intro s hs
        rw [hfs] at hs
        cases hs
        rfl

/-- Witness of C9, amended, on the store `galaAfter`. -/
theorem listBookings_listing_witness :
    ∃ entries,
      listBookings (Ambient.quiet 2) galaAfter =
        ⟨200, true, .none, .listing galaAfter.bookings.length entries⟩ ∧
      entries.length = galaAfter.bookings.length ∧
      (entries.map (fun x => x.booking)).Perm galaAfter.bookings ∧
      (entries.map (fun x => x.booking)).Pairwise (fun a c => c.createdAt ≤ a.createdAt) ∧
      ∀ x ∈ entries,
        x.event = galaAfter.events.find? (fun e => e.id == x.booking.eventId) ∧
        ((∀ e ∈ galaAfter.events, e.id ≠ x.booking.eventId) →
          x.event = none ∧ x.sectionDetails = .absent) ∧
        (∀ ev, x.event = some ev →
          ((∀ s ∈ ev.sections, s.id ≠ x.booking.sectionId) → x.sectionDetails = .null) ∧
          (∀ s, ev.sections.find? (fun s => s.id == x.booking.sectionId) = some s →
            x.sectionDetails = .found s)) :=
  listBookings_listing (Ambient.quiet 2) galaAfter rfl

/-- Counterexample to C9 as stated.  The only booking of `orphanStore` references an event
that does not exist; the listing succeeds with one entry, and that entry has no
`sectionDetails` field: it is absent, not `null`. -/
theorem listBookings_orphan_has_no_sectionDetails :
    listBookings (Ambient.quiet 2) orphanStore =
      ⟨200, true, .none, .listing 1 [⟨⟨0, 7, 8, 1, 0⟩, none, .absent⟩]⟩ ∧
    SectionDetails.absent ≠ SectionDetails.null := by
  refine ⟨by decide, by decide⟩

/-! ## Responses to internal errors -/

theorem createBookingTry_cases (d : Driver) (amb : Ambient) (st : Store)
    (eventId sectionId : JsVal) (q : ℚ) :
    match (createBookingTry d amb st eventId sectionId q).1 with
    | .ok r =>
      r.status = 201 ∨ r = failure 404 (.text "Event not found") ∨
        r = failure 404 (.text "Section not found in this event") ∨
        ∃ ev sec, ev ∈ st.events ∧ sec ∈ ev.sections ∧
          r = failure 400 (.notEnoughSeats q sec.remaining)
    | .error e =>
      e = castError ∨ (∃ site, amb.fault site = some e) ∨ e = typeError ∨
        e = validationError := by
  unfold createBookingTry findOneAndUpdate
  cases hce : d.castObjectId eventId with
  | none => simp
  | some eid =>
    cases hcs : d.castObjectId sectionId with
    | none => simp
    | some sid =>
      cases hf : amb.fault .findOneAndUpdate with
      | some err => simp only []; exact Or.inr (Or.inl ⟨_, hf⟩)
      | none =>
        simp only []
        cases updateOne (reserveFilter eid sid q)
            (fun e => { e with sections := incFirst (positionalPred d.positional sid q) (-q) e.sections })
            st.events with
        | none =>
          simp only [diagnose, findById, hce, sectionsId, hcs]
          cases hf2 : amb.fault .findById with
          | some err => simp only []; exact Or.inr (Or.inl ⟨_, hf2⟩)
          | none =>
            simp only []
            cases hfe : st.events.find? (fun e => e.id == eid) with
            | none => simp
            | some ev =>
              simp only []
              cases hfs : ev.sections.find? (fun s => s.id == sid) with
              | none => simp
              | some sec =>
                exact Or.inr (Or.inr (Or.inr ⟨ev, sec, List.mem_of_find?_eq_some hfe,
                  List.mem_of_find?_eq_some hfs, rfl⟩))
        | some r =>
          obtain ⟨doc, evs⟩ := r
          simp only [bookingCreate, hce, hcs, sectionsId]
          by_cases hq1 : q < 1
          · simp [hq1]
          · simp only [hq1, if_false]
            cases hf3 : amb.fault .bookingCreate with
            | some err => simp only []; exact Or.inr (Or.inl ⟨_, hf3⟩)
            | none =>
              simp only []
              cases doc.sections.find? (fun s => s.id == sid) with
              | none => simp
              | some sec => simp

theorem createBooking_response_cases (d : Driver) (amb : Ambient) (st : Store)
    (body : BookingBody) :
    (createBooking d amb st body).1.status = 201 ∨
    (createBooking d amb st body).1 ∈
      [failure 400 (.text "eventId, sectionId, and qty are required"),
        failure 400 (.text "qty must be a positive integer"),
        failure 400 (.text "Invalid ID format"),
        failure 404 (.text "Event not found"),
        failure 404 (.text "Section not found in this event")] ∨
    (∃ q ev sec, body.qty = .num q ∧ ev ∈ st.events ∧ sec ∈ ev.sections ∧
      (createBooking d amb st body).1 = failure 400 (.notEnoughSeats q sec.remaining)) ∨
    (∃ e, (createBooking d amb st body).1 = failure 500 (.text e.message) ∧
      e.name ≠ "CastError" ∧
      ((∃ site, amb.fault site = some e) ∨ e = typeError ∨ e = validationError)) := by
  unfold createBooking
  split
  · right; left; simp
  · split
    · right; left; simp
    · split
      · rename_i q hqty
        have h := createBookingTry_cases d amb st body.eventId body.sectionId q
        cases ht : createBookingTry d amb st body.eventId body.sectionId q with
        | mk res st1 =>
          rw [ht] at h
          cases res with
          | ok r =>
            simp only [] at h ⊢
            rcases h with h | h | h | ⟨ev, sec, h1, h2, h⟩
            · exact Or.inl h
            · right; left; simp [h]
            · right; left; simp [h]
            · exact Or.inr (Or.inr (Or.inl ⟨q, ev, sec, hqty, h1, h2, h⟩))
          | error e =>
            simp only [] at h ⊢
            unfold createBookingCatch
            by_cases hn : e.name = "CastError"
            · right; left; simp [hn]
            · rcases h with h | h
              · exact absurd (by rw [h]; rfl) hn
              · exact Or.inr (Or.inr (Or.inr ⟨e, by simp [hn], hn, h⟩))
      · right; left; simp

/-- What the controllers answer to an internal error.  When the first storage call of
`createBooking`, `listBookings` or `getEvent` raises `e` (other than a `CastError`), the
response is 500 with `message: e.message`; every 500 of `createBooking` carries the
message of an error raised by a storage call or thrown by the handler.  The error handler
of `server.js` answers any error with the fixed "Internal server error". -/
theorem controller_500_carries_error_message (d : Driver) (amb : Ambient) (st : Store)
    (body : BookingBody) (id : String) (e : JsError) (eid sid oid : ObjectId) (q : ℚ)
    (he : truthy body.eventId = true) (hs : truthy body.sectionId = true)
    (hq : body.qty = .num q) (hpos : IsPositiveInteger body.qty)
    (hce : d.castObjectId body.eventId = some eid)
    (hcs : d.castObjectId body.sectionId = some sid)
    (hid : d.castObjectId (.str id) = some oid)
    (hname : e.name ≠ "CastError")
    (hf1 : amb.fault .findOneAndUpdate = some e)
    (hf2 : amb.fault .bookingFind = some e)
    (hf3 : amb.fault .findById = some e) :
    createBooking d amb st body = (failure 500 (.text e.message), st) ∧
    listBookings amb st = failure 500 (.text e.message) ∧
    getEvent d amb st id = failure 500 (.text e.message) ∧
    errorHandler e = failure 500 (.text "Internal server error") ∧
    (∀ (amb1 : Ambient) (st1 : Store) (body1 : BookingBody),
      (createBooking d amb1 st1 body1).1.status = 500 →
      ∃ e1, (createBooking d amb1 st1 body1).1 = failure 500 (.text e1.message) ∧
        e1.name ≠ "CastError" ∧
        ((∃ site, amb1.fault site = some e1) ∨ e1 = typeError ∨ e1 = validationError)) := by
  have hrej : qtyRejected body.qty = false := (qtyRejected_eq_false_iff _).2 hpos
  have htq : truthy body.qty = true := truthy_of_isPositiveInteger _ hpos
  refine ⟨?_, ?_, ?_, rfl, ?_⟩
  · simp only [createBooking, he, hs, htq, hrej, createBookingTry]
    rw [hq]
    simp [findOneAndUpdate, hce, hcs, hf1, createBookingCatch, hname]
  · simp [listBookings, hf2]
  · simp [getEvent, findById, hid, hf3, hname]
  · intro amb1 st1 body1 h500
    rcases createBooking_response_cases d amb1 st1 body1 with h | h | ⟨q1, ev, sec, _, _, _, h⟩ | h
    · rw [h] at h500; cases h500
    · simp only [List.mem_cons, List.mem_singleton, List.not_mem_nil, or_false] at h
      rcases h with h | h | h | h | h <;> (rw [h] at h500; cases h500)
    · rw [h] at h500; cases h500
    · exact h

/-- The 400 and 404 responses carry a reason.  A 400 or 404 of `createBooking` is one of
five fixed texts, or reports the requested quantity and the seats left in a section of the
store; a 400 or 404 of `getEvent` is one of two fixed texts. -/
theorem client_error_carries_reason (d : Driver) (amb : Ambient) (st : Store) :
    (∀ body : BookingBody,
      (createBooking d amb st body).1.status = 400 ∨
        (createBooking d amb st body).1.status = 404 →
      (createBooking d amb st body).1 ∈
        [failure 400 (.text "eventId, sectionId, and qty are required"),
          failure 400 (.text "qty must be a positive integer"),
          failure 400 (.text "Invalid ID format"),
          failure 404 (.text "Event not found"),
          failure 404 (.text "Section not found in this event")] ∨
      ∃ q ev sec, body.qty = .num q ∧ ev ∈ st.events ∧ sec ∈ ev.sections ∧
        (createBooking d amb st body).1 = failure 400 (.notEnoughSeats q sec.remaining)) ∧
    (∀ id : String,
      (getEvent d amb st id).status = 400 ∨ (getEvent d amb st id).status = 404 →
      getEvent d amb st id = failure 400 (.text "Invalid event ID format") ∨
        getEvent d amb st id = failure 404 (.text "Event not found")) := by
  refine ⟨?_, ?_⟩
  · intro body h4
    rcases createBooking_response_cases d amb st body with h | h | h | ⟨e1, h, _⟩
    · rcases h4 with h4 | h4 <;> (rw [h] at h4; cases h4)
    · exact Or.inl h
    · exact Or.inr h
    · rcases h4 with h4 | h4 <;> (rw [h] at h4; cases h4)
  · intro id h4
    unfold getEvent at h4 ⊢
    cases hf : findById d amb st (.str id) with
    | error e =>
      rw [hf] at h4
      by_cases hn : e.name = "CastError"
      · left; simp [hn]
      · simp [hn, failure] at h4
    | ok r =>
      rw [hf] at h4
      cases r with
      | none => right; rfl
      | some ev => simp at h4

/-- The connection is refused during a booking request, a listing and a lookup: each
handler answers 500 with the message of the error. -/
theorem controller_500_carries_error_message_instance :
    createBooking hexDriver (Ambient.failing 1 refusedError) galaStore stallsTwo =
      (failure 500 (.text "connect ECONNREFUSED 127.0.0.1:27017"), galaStore) ∧
    listBookings (Ambient.failing 1 refusedError) galaStore =
      failure 500 (.text "connect ECONNREFUSED 127.0.0.1:27017") ∧
    getEvent hexDriver (Ambient.failing 1 refusedError) galaStore "000000000000000000000000" =
      failure 500 (.text "connect ECONNREFUSED 127.0.0.1:27017") ∧
    errorHandler refusedError = failure 500 (.text "Internal server error") :=
  have h := controller_500_carries_error_message hexDriver (Ambient.failing 1 refusedError)
    galaStore stallsTwo "000000000000000000000000" refusedError 0 1 0 2
    (by decide) (by decide) rfl ⟨2, by decide, by simp [stallsTwo]⟩ (by decide) (by decide)
    (by decide) (by decide) rfl rfl rfl
  ⟨h.1, h.2.1, h.2.2.1, h.2.2.2.1⟩

/-- Claim C10 at a failing input.  Two storage errors with different messages give two
different 500 bodies, each carrying the error's own message, in `createBooking`, in
`listBookings` and in `getEvent`; the error handler of `server.js` answers both errors
with the same fixed body. -/
theorem internal_error_message_in_500_body :
    refusedError.message ≠ selectionError.message ∧
    errorHandler refusedError = failure 500 (.text "Internal server error") ∧
    errorHandler selectionError = failure 500 (.text "Internal server error") ∧
    (createBooking hexDriver (Ambient.failing 1 refusedError) galaStore stallsTwo).1 =
      failure 500 (.text "connect ECONNREFUSED 127.0.0.1:27017") ∧
    (createBooking hexDriver (Ambient.failing 1 selectionError) galaStore stallsTwo).1 =
      failure 500 (.text "Server selection timed out after 30000 ms") ∧
    (createBooking hexDriver (Ambient.failing 1 refusedError) galaStore stallsTwo).1 ≠
      (createBooking hexDriver (Ambient.failing 1 selectionError) galaStore stallsTwo).1 ∧
    listBookings (Ambient.failing 1 refusedError) galaStore ≠
      listBookings (Ambient.failing 1 selectionError) galaStore ∧
    getEvent hexDriver (Ambient.failing 1 refusedError) galaStore "000000000000000000000000" ≠
      getEvent hexDriver (Ambient.failing 1 selectionError) galaStore
        "000000000000000000000000" := by
  refine ⟨by decide, rfl, rfl, by decide, by decide, by decide, by decide, by decide⟩

/-! ## Rounding to a double

Every integer up to `2 ^ 53` is a double: rounding leaves it as it is. -/

theorem roundHalfEven_intCast (N : ℤ) : roundHalfEven (N : ℚ) = N := by
  simp [roundHalfEven]

theorem bitLengthAux_spec : ∀ (fuel n : Nat), n ≤ fuel →
    n < 2 ^ bitLengthAux fuel n ∧ (n ≠ 0 → 2 ^ (bitLengthAux fuel n - 1) ≤ n) := by
  intro fuel
  induction fuel with
  | zero =>
    intro n hn
    have : n = 0 := by omega
    subst this
    simp [bitLengthAux]
  | succ f ih =>
    intro n hn
    by_cases h0 : n = 0
    · subst h0
      simp [bitLengthAux]
    · have hhalf : n / 2 ≤ f := by omega
      obtain ⟨h1, h2⟩ := ih (n / 2) hhalf
      simp only [bitLengthAux, h0, if_false, Nat.add_sub_cancel]
      refine ⟨?_, fun _ => ?_⟩
      · rw [pow_succ]
        omega
      · by_cases hz : n / 2 = 0
        · have hb : bitLengthAux f (n / 2) = 0 := by
            rw [hz]
            cases f <;> simp [bitLengthAux]
          rw [hb]
          simp
          omega
        · have h3 := h2 hz
          have hpos : bitLengthAux f (n / 2) ≠ 0 := by
            intro hc
            rw [hc] at h1
            simp at h1
            exact hz h1
          obtain ⟨b, hb⟩ := Nat.exists_eq_succ_of_ne_zero hpos
          rw [hb] at h3 ⊢
          simp only [Nat.succ_eq_add_one, Nat.add_sub_cancel] at h3
          rw [Nat.succ_eq_add_one, pow_succ]
          omega

theorem bitLength_spec (n : Nat) (h0 : n ≠ 0) :
    2 ^ (bitLength n - 1) ≤ n ∧ n < 2 ^ bitLength n :=
  ⟨(bitLengthAux_spec n n (le_refl _)).2 h0, (bitLengthAux_spec n n (le_refl _)).1⟩

theorem toDouble_eq_self {x : ℚ} (N : ℤ)
    (hu : twoPow (binaryExponent |x| - 52) ≠ 0)
    (hN : x / twoPow (binaryExponent |x| - 52) = N) : toDouble x = x := by
  unfold toDouble
  by_cases hx : x = 0
  · simp [hx]
  · simp only [hx, if_false]
    rw [hN, roundHalfEven_intCast, ← hN]
    field_simp

theorem toDouble_natCast (n : ℕ) (h : n ≤ 2 ^ 53) : toDouble (n : ℚ) = n := by
  by_cases h0 : n = 0
  · subst h0; simp [toDouble]
  obtain ⟨hlo, hhi⟩ := bitLength_spec n h0
  have hL1 : 1 ≤ bitLength n := by
    by_contra hc
    have : bitLength n = 0 := by omega
    rw [this] at hhi
    omega
  have hL54 : bitLength n ≤ 54 := by
    by_contra hc
    have h54 : 2 ^ 54 ≤ 2 ^ (bitLength n - 1) := Nat.pow_le_pow_right (by norm_num) (by omega)
    have : (2:ℕ) ^ 53 < 2 ^ 54 := by norm_num
    omega
  have habs : |(n : ℚ)| = n := abs_of_nonneg (by positivity)
  have hb1 : bitLength 1 = 1 := by decide
  have hexp : binaryExponent (n : ℚ) = (bitLength n : ℤ) - 1 := by
    unfold binaryExponent
    simp only [Rat.num_natCast, Int.natAbs_ofNat, Rat.den_natCast, hb1, Nat.cast_one]
    have hk : (0 : ℤ) ≤ (bitLength n : ℤ) - 1 := by omega
    have htn : ((bitLength n : ℤ) - 1).toNat = bitLength n - 1 := by omega
    have : twoPow ((bitLength n : ℤ) - 1) ≤ (n : ℚ) := by
      simp only [twoPow, hk, if_true, htn]
      exact_mod_cast hlo
    simp [this]
  rw [← habs] at hexp
  by_cases hL : bitLength n ≤ 53
  · -- the unit in the last place is 2 ^ (-m)
    have hm : ∃ m : ℕ, (bitLength n : ℤ) - 1 - 52 = -(m : ℤ) := ⟨53 - bitLength n, by omega⟩
    obtain ⟨m, hm⟩ := hm
    have hu : twoPow ((bitLength n : ℤ) - 1 - 52) = 1 / ((2 ^ m : ℕ) : ℚ) := by
      rw [hm]
      unfold twoPow
      by_cases hm0 : m = 0
      · subst hm0; simp
      · have : ¬ (0 : ℤ) ≤ -(m : ℤ) := by omega
        simp [this]
    have hpos : ((2 ^ m : ℕ) : ℚ) ≠ 0 := by positivity
    apply toDouble_eq_self ((n * 2 ^ m : ℕ) : ℤ)
    · rw [hexp, hu]; positivity
    · rw [hexp, hu]
      push_cast
      field_simp
  · have hL' : bitLength n = 54 := by omega
    have hn : n = 2 ^ 53 := by
      rw [hL'] at hlo
      simp at hlo
      omega
    have hu : twoPow ((bitLength n : ℤ) - 1 - 52) = 2 := by
      rw [hL']
      decide!
    apply toDouble_eq_self ((2 ^ 52 : ℕ) : ℤ)
    · rw [hexp, hu]; norm_num
    · rw [hexp, hu, hn]
      push_cast
      norm_num

/-! ## Concurrent requests against an event with a single section -/

/-- The handler is its part before the first `await` followed by its part after it. -/
theorem createBooking_eq_reserve_resume (d : Driver) (amb : Ambient) (st : Store)
    (body : BookingBody) :
    createBooking d amb st body =
      match createBookingReserve d amb st body with
      | (.inl r, st1) => (r, st1)
      | (.inr a, st1) => createBookingResume d amb st1 body a := by
  unfold createBooking createBookingReserve
  split
  · rfl
  · split
    · rfl
    · split
      · rename_i q _
        unfold createBookingTry
        rcases hfo : findOneAndUpdate d amb st body.eventId body.sectionId q with ⟨res, st1⟩
        cases res with
        | error err => rfl
        | ok doc =>
          cases doc with
          | none =>
            simp only [createBookingResume]
            cases diagnose d amb st1 body.eventId body.sectionId q <;> rfl
          | some result =>
            simp only [createBookingResume]
            rcases bookingCreate d amb st1 body.eventId body.sectionId q with ⟨res2, st2⟩
            cases res2 with
            | error err => rfl
            | ok booking =>
              simp only []
              cases sectionsId d result.sections body.sectionId <;> rfl
      · rfl

theorem createBookingReserve_sole_ok (d : Driver) (amb : Ambient) (st : Store)
    (body : BookingBody) (pre post : List Event) (e : Event) (s : Section) (q r : ℚ)
    (hev : st.events = pre ++ withSeats e s r :: post)
    (hpre : ∀ x ∈ pre, x.id ≠ e.id)
    (he : truthy body.eventId = true) (hs : truthy body.sectionId = true)
    (hq : body.qty = .num q) (hpos : IsPositiveInteger body.qty)
    (hce : d.castObjectId body.eventId = some e.id)
    (hcs : d.castObjectId body.sectionId = some s.id)
    (hquiet : ∀ site, amb.fault site = none)
    (hle : q ≤ r) :
    createBookingReserve d amb st body =
      (.inr (.commit q (withSeats e s (toDouble (r - q)))),
        ⟨pre ++ withSeats e s (toDouble (r - q)) :: post, st.bookings, st.nextId⟩) := by
  have hrej : qtyRejected body.qty = false := (qtyRejected_eq_false_iff _).2 hpos
  have htq : truthy body.qty = true := truthy_of_isPositiveInteger _ hpos
  have hfe : reserveFilter e.id s.id q (withSeats e s r) = true := by
    simp [reserveFilter, withSeats, hle]
  have hpp : positionalPred d.positional s.id q ⟨s.id, s.name, s.price, s.capacity, r⟩ = true := by
    cases hd : d.positional <;> simp [positionalPred, hle]
  have hup := updateOne_append_hit (reserveFilter e.id s.id q)
    (fun e => { e with sections := incFirst (positionalPred d.positional s.id q) (-q) e.sections })
    pre post (withSeats e s r) (fun x hx => reserveFilter_of_id_ne (hpre x hx)) hfe
  simp only [createBookingReserve, he, hs, htq, hrej]
  rw [hq]
  simp only [findOneAndUpdate, hce, hcs, hquiet, hev, hup]
  simp [withSeats, incFirst, hpp, sub_eq_add_neg]

theorem createBookingReserve_sole_short (d : Driver) (amb : Ambient) (st : Store)
    (body : BookingBody) (pre post : List Event) (e : Event) (s : Section) (q r : ℚ)
    (hev : st.events = pre ++ withSeats e s r :: post)
    (hpre : ∀ x ∈ pre, x.id ≠ e.id) (hpost : ∀ x ∈ post, x.id ≠ e.id)
    (he : truthy body.eventId = true) (hs : truthy body.sectionId = true)
    (hq : body.qty = .num q) (hpos : IsPositiveInteger body.qty)
    (hce : d.castObjectId body.eventId = some e.id)
    (hcs : d.castObjectId body.sectionId = some s.id)
    (hquiet : ∀ site, amb.fault site = none)
    (hlt : r < q) :
    createBookingReserve d amb st body = (.inr (.diagnose q), st) := by
  have hrej : qtyRejected body.qty = false := (qtyRejected_eq_false_iff _).2 hpos
  have htq : truthy body.qty = true := truthy_of_isPositiveInteger _ hpos
  have hfe : reserveFilter e.id s.id q (withSeats e s r) = false := by
    simp [reserveFilter, withSeats, not_le.2 hlt]
  have hnone : updateOne (reserveFilter e.id s.id q)
      (fun e => { e with sections := incFirst (positionalPred d.positional s.id q) (-q) e.sections })
      (pre ++ withSeats e s r :: post) = none := by
    rw [updateOne_eq_none_iff]
    intro x hx
    rcases List.mem_append.1 hx with hx | hx
    · exact reserveFilter_of_id_ne (hpre x hx)
    · rcases List.mem_cons.1 hx with hx | hx
      · rw [hx]; exact hfe
      · exact reserveFilter_of_id_ne (hpost x hx)
  simp only [createBookingReserve, he, hs, htq, hrej]
  rw [hq]
  simp only [findOneAndUpdate, hce, hcs, hquiet, hev, hnone]
  simp

theorem createBookingResume_commit (d : Driver) (amb : Ambient) (st : Store)
    (body : BookingBody) (e : Event) (s : Section) (q r : ℚ)
    (hq1 : 1 ≤ q)
    (hce : d.castObjectId body.eventId = some e.id)
    (hcs : d.castObjectId body.sectionId = some s.id)
    (hquiet : ∀ site, amb.fault site = none) :
    createBookingResume d amb st body (.commit q (withSeats e s r)) =
      (bookingCreated ⟨st.nextId, e.id, s.id, q, amb.now⟩ r,
        ⟨st.events, st.bookings ++ [⟨st.nextId, e.id, s.id, q, amb.now⟩], st.nextId + 1⟩) := by
  have hq' : ¬ q < 1 := not_lt.2 hq1
  simp [createBookingResume, bookingCreate, hce, hcs, hq', hquiet, sectionsId, withSeats,
    bookingCreated]

theorem createBookingResume_diagnose (d : Driver) (amb : Ambient) (st : Store)
    (body : BookingBody) (pre post : List Event) (e : Event) (s : Section) (q r : ℚ)
    (hev : st.events = pre ++ withSeats e s r :: post)
    (hpre : ∀ x ∈ pre, x.id ≠ e.id)
    (hce : d.castObjectId body.eventId = some e.id)
    (hcs : d.castObjectId body.sectionId = some s.id)
    (hquiet : ∀ site, amb.fault site = none) :
    createBookingResume d amb st body (.diagnose q) =
      (failure 400 (.notEnoughSeats q r), st) := by
  have hfind := find?_append_hit (fun x => x.id == e.id) pre post (withSeats e s r)
    (fun x hx => by simpa using hpre x hx) (by simp [withSeats])
  simp only [createBookingResume, diagnose, findById, hce, hquiet, hev, hfind, sectionsId, hcs]
  simp [withSeats]

theorem perm_cons_eraseIdx {α : Type} (l : List α) :
    ∀ (j : Nat) (f : α), l[j]? = some f → l.Perm (f :: l.eraseIdx j) := by
  induction l with
  | nil => intro j f h; simp at h
  | cons a rest ih =>
    intro j f h
    cases j with
    | zero =>
      simp only [List.getElem?_cons_zero, Option.some.injEq] at h
      subst h
      simp
    | succ k =>
      simp only [List.getElem?_cons_succ] at h
      simp only [List.eraseIdx_cons_succ]
      exact (List.Perm.cons a (ih k f h)).trans (List.Perm.swap f a _)

theorem countP_range_lt (M : Nat) : ∀ k : Nat,
    (List.range k).countP (fun i => decide (i < M)) = min k M := by
  intro k
  induction k with
  | zero => simp
  | succ n ih =>
    rw [List.range_succ, List.countP_append, ih]
    by_cases h : n < M
    · simp [List.countP_cons, h]; omega
    · simp [List.countP_cons, h]; omega

theorem seats_enough (C q n : ℕ) (hq0 : 1 ≤ q) (hn : n < C / q) :
    (q : ℚ) ≤ (C : ℚ) - q * (n : ℕ) := by
  have h1 : (n + 1) * q ≤ C := (Nat.le_div_iff_mul_le (by omega)).1 hn
  have h2 : ((n + 1 : ℕ) : ℚ) * q ≤ C := by exact_mod_cast h1
  push_cast at h2
  linarith

theorem seats_short (C q : ℕ) (hq0 : 1 ≤ q) :
    (C : ℚ) - q * (C / q : ℕ) < (q : ℚ) := by
  have h1 : C % q < q := Nat.mod_lt _ (by omega)
  have h2 : C % q + q * (C / q) = C := Nat.mod_add_div C q
  have h3 : C < q * (C / q) + q := by omega
  have h4 : ((C : ℕ) : ℚ) < ((q * (C / q) + q : ℕ) : ℚ) := by exact_mod_cast h3
  push_cast at h4
  linarith

theorem bookedQty_bookings (st st1 : Store) (eid sid : ObjectId)
    (h : st1.bookings = st.bookings) : bookedQty st1 eid sid = bookedQty st eid sid := by
  unfold bookedQty
  rw [h]

theorem soleSectionInv_step (d : Driver) (body : BookingBody) (pre post : List Event)
    (e : Event) (s : Section) (C q : ℕ) (booked : ℚ)
    (hC : C ≤ 2 ^ 53) (hq0 : 1 ≤ q)
    (hpre : ∀ x ∈ pre, x.id ≠ e.id) (hpost : ∀ x ∈ post, x.id ≠ e.id)
    (he : truthy body.eventId = true) (hs : truthy body.sectionId = true)
    (hq : body.qty = .num q)
    (hce : d.castObjectId body.eventId = some e.id)
    (hcs : d.castObjectId body.sectionId = some s.id)
    (sv : Server) (a : Action)
    (ha : ∀ amb b, a = .arrive amb b → b = body ∧ ∀ site, amb.fault site = none)
    (hinv : SoleSectionInv body pre post e s C q booked sv) :
    SoleSectionInv body pre post e s C q booked (Server.step d sv a) := by
  have hpos : IsPositiveInteger body.qty := ⟨q, hq0, hq⟩
  have hq1 : (1 : ℚ) ≤ (q : ℚ) := by exact_mod_cast hq0
  obtain ⟨h1, h2, h3, h4, h5⟩ := hinv
  cases a with
  | arrive amb b =>
    obtain ⟨hb, hquiet⟩ := ha amb b rfl
    subst hb
    by_cases hn : sv.started < C / q
    · -- the reservation matches
      have hmin : min sv.started (C / q) = sv.started := by omega
      have hmin1 : min (sv.started + 1) (C / q) = sv.started + 1 := by omega
      rw [hmin] at h1
      have hres := createBookingReserve_sole_ok d amb sv.store b pre post e s q
        ((C : ℚ) - q * (sv.started : ℕ)) h1 hpre he hs hq hpos hce hcs hquiet
        (seats_enough C q sv.started hq0 hn)
      have hnat : q * (sv.started + 1) ≤ C := by
        have := (Nat.le_div_iff_mul_le (by omega : 0 < q)).1 hn
        rw [Nat.mul_comm]; exact this
      have hr0 : (C : ℚ) - q * (sv.started : ℕ) - q =
          ((C - q * (sv.started + 1) : ℕ) : ℚ) := by
        rw [Nat.cast_sub hnat]; push_cast; ring
      have hr : toDouble ((C : ℚ) - q * (sv.started : ℕ) - q) =
          (C : ℚ) - q * ((sv.started + 1 : ℕ) : ℚ) := by
        rw [hr0, toDouble_natCast _ (le_trans (Nat.sub_le _ _) hC), Nat.cast_sub hnat]
        push_cast; ring
      rw [hr] at hres
      simp only [Server.step, hres]
      refine ⟨?_, ?_, ?_, ?_, ?_⟩
      · simp only [hmin1]
      · intro f hf
        rcases List.mem_append.1 hf with hf | hf
        · obtain ⟨g1, g2, g3, g4⟩ := h2 f hf
          exact ⟨Nat.lt_succ_of_lt g1, g2, g3, g4⟩
        · simp only [List.mem_singleton] at hf
          subst hf
          exact ⟨Nat.lt_succ_self _, rfl, hquiet, Or.inl ⟨hn, rfl⟩⟩
      · intro p hp
        obtain ⟨g1, g2⟩ := h3 p hp
        exact ⟨Nat.lt_succ_of_lt g1, g2⟩
      · simp only [List.map_append, List.map_cons, List.map_nil, List.range_succ]
        have := List.Perm.append_right [sv.started] h4
        refine List.Perm.trans ?_ this
        simp only [List.append_assoc]
        exact List.Perm.append_left _ List.perm_append_comm
      · rw [← h5]
        exact bookedQty_bookings _ _ _ _ rfl
    · -- the reservation does not match
      have hmin : min sv.started (C / q) = C / q := by omega
      have hmin1 : min (sv.started + 1) (C / q) = C / q := by omega
      rw [hmin] at h1
      have hres := createBookingReserve_sole_short d amb sv.store b pre post e s q
        ((C : ℚ) - q * (C / q : ℕ)) h1 hpre hpost he hs hq hpos hce hcs hquiet
        (seats_short C q hq0)
      simp only [Server.step, hres]
      refine ⟨?_, ?_, ?_, ?_, ?_⟩
      · simp only [hmin1]; exact h1
      · intro f hf
        rcases List.mem_append.1 hf with hf | hf
        · obtain ⟨g1, g2, g3, g4⟩ := h2 f hf
          exact ⟨Nat.lt_succ_of_lt g1, g2, g3, g4⟩
        · simp only [List.mem_singleton] at hf
          subst hf
          exact ⟨Nat.lt_succ_self _, rfl, hquiet, Or.inr ⟨not_lt.1 hn, rfl⟩⟩
      · intro p hp
        obtain ⟨g1, g2⟩ := h3 p hp
        exact ⟨Nat.lt_succ_of_lt g1, g2⟩
      · simp only [List.map_append, List.map_cons, List.map_nil, List.range_succ]
        have := List.Perm.append_right [sv.started] h4
        refine List.Perm.trans ?_ this
        simp only [List.append_assoc]
        exact List.Perm.append_left _ List.perm_append_comm
      · exact h5
  | resume j =>
    cases hj : sv.inFlight[j]? with
    | none => simp only [Server.step, hj]; exact ⟨h1, h2, h3, h4, h5⟩
    | some f =>
      have hperm := perm_cons_eraseIdx sv.inFlight j f hj
      have hfm : f ∈ sv.inFlight := hperm.mem_iff.2 (List.mem_cons_self _ _)
      have hsub : ∀ g ∈ sv.inFlight.eraseIdx j, g ∈ sv.inFlight :=
        fun g hg => hperm.mem_iff.2 (List.mem_cons_of_mem _ hg)
      obtain ⟨g1, g2, g3, g4⟩ := h2 f hfm
      have hp4 : ((sv.inFlight.eraseIdx j).map (fun f => f.index) ++
          (sv.responses ++ [(f.index, (createBookingResume d f.amb sv.store f.body
            f.awaiting).1)]).map (fun p => p.1)).Perm (List.range sv.started) := by
        refine List.Perm.trans ?_ h4
        have hm := (List.Perm.map (fun f => f.index) hperm).symm
        simp only [List.map_cons] at hm
        simp only [List.map_append, List.map_cons, List.map_nil]
        refine List.Perm.trans ?_ (List.Perm.append_right _ hm)
        rw [← List.append_assoc]
        refine List.Perm.trans List.perm_append_comm ?_
        simp
      simp only [Server.step, hj]
      rw [g2] at hp4 ⊢
      rcases g4 with ⟨gi, ga⟩ | ⟨gi, ga⟩
      · -- the request stores its booking and answers 201
        rw [ga] at hp4 ⊢
        have hres := createBookingResume_commit d f.amb sv.store body e s q
          ((C : ℚ) - q * ((f.index + 1 : ℕ) : ℚ)) hq1 hce hcs g3
        rw [hres] at hp4 ⊢
        refine ⟨h1, fun g hg => h2 g (hsub g hg), ?_, hp4, ?_⟩
        · intro p hp
          rcases List.mem_append.1 hp with hp | hp
          · exact h3 p hp
          · simp only [List.mem_singleton] at hp
            subst hp
            exact ⟨g1, Or.inl ⟨gi, _, rfl, rfl, rfl, rfl⟩⟩
        · rw [bookedQty_snoc sv.store.events _ sv.store.bookings sv.store.nextId]
          simp only [and_self, if_true, List.countP_append, List.countP_cons, List.countP_nil,
            gi, decide_True]
          have : bookedQty ⟨sv.store.events, sv.store.bookings, sv.store.nextId⟩ e.id s.id =
              bookedQty sv.store e.id s.id := rfl
          rw [this, h5]
          push_cast
          ring
      · -- the request finds too few seats and answers 400
        rw [ga] at hp4 ⊢
        have hmin : min sv.started (C / q) = C / q := by omega
        rw [hmin] at h1
        have hres := createBookingResume_diagnose d f.amb sv.store body pre post e s q
          ((C : ℚ) - q * (C / q : ℕ)) h1 hpre hce hcs g3
        rw [hres] at hp4 ⊢
        refine ⟨by rw [hmin]; exact h1, fun g hg => h2 g (hsub g hg), ?_, hp4, ?_⟩
        · intro p hp
          rcases List.mem_append.1 hp with hp | hp
          · exact h3 p hp
          · simp only [List.mem_singleton] at hp
            subst hp
            exact ⟨g1, Or.inr ⟨gi, rfl⟩⟩
        · have hni : ¬ f.index < C / q := by omega
          simp only [List.countP_append, List.countP_cons, List.countP_nil, hni, decide_False]
          simpa using h5

theorem soleSectionInv_run (d : Driver) (body : BookingBody) (pre post : List Event)
    (e : Event) (s : Section) (C q : ℕ) (booked : ℚ)
    (hC : C ≤ 2 ^ 53) (hq0 : 1 ≤ q)
    (hpre : ∀ x ∈ pre, x.id ≠ e.id) (hpost : ∀ x ∈ post, x.id ≠ e.id)
    (he : truthy body.eventId = true) (hs : truthy body.sectionId = true)
    (hq : body.qty = .num q)
    (hce : d.castObjectId body.eventId = some e.id)
    (hcs : d.castObjectId body.sectionId = some s.id) :
    ∀ (acts : List Action) (sv : Server),
      (∀ a ∈ acts, ∀ amb b, a = .arrive amb b → b = body ∧ ∀ site, amb.fault site = none) →
      SoleSectionInv body pre post e s C q booked sv →
      SoleSectionInv body pre post e s C q booked (Server.run d sv acts) ∧
      (Server.run d sv acts).started = sv.started + acts.countP Action.isArrive := by
  intro acts
  induction acts with
  | nil => intro sv _ hinv; exact ⟨hinv, by simp [Server.run]⟩
  | cons a rest ih =>
    intro sv hacts hinv
    have hstep := soleSectionInv_step d body pre post e s C q booked hC hq0 hpre hpost he hs
      hq hce hcs sv a (hacts a (List.mem_cons_self _ _)) hinv
    obtain ⟨r1, r2⟩ := ih (Server.step d sv a)
      (fun x hx => hacts x (List.mem_cons_of_mem _ hx)) hstep
    have hrun : Server.run d sv (a :: rest) = Server.run d (Server.step d sv a) rest := rfl
    rw [hrun]
    refine ⟨r1, ?_⟩
    rw [r2, List.countP_cons]
    cases a with
    | arrive amb b =>
      have : (Server.step d sv (.arrive amb b)).started = sv.started + 1 := by
        simp only [Server.step]
        rcases createBookingReserve d amb sv.store b with ⟨res, st1⟩
        cases res <;> rfl
      rw [this]
      simp [Action.isArrive]
      omega
    | resume j =>
      have : (Server.step d sv (.resume j)).started = sv.started := by
        simp only [Server.step]
        cases sv.inFlight[j]? <;> rfl
      rw [this]
      simp [Action.isArrive]

/-- Claim C7, amended.  An event that is the only one with its id has exactly one section,
of capacity `C` no greater than `2 ^ 53` (up to which every integer is a double), with
all `C` seats left.  Requests for `q` seats of it arrive and run
concurrently: their storage calls interleave in any order, `acts`, each request running
its reservation when it arrives and its second storage call when it is resumed.  Once
all `k` requests are answered, and with `m = min k (C / q)`: each request is answered
once; the request whose reservation ran `i`th (from 0) is answered 201 with
`C - q * (i + 1)` remaining seats when `i < C / q`, and 400 with requested `q` and
available `C - q * m` otherwise; exactly `m` responses are 201; the section ends with
`C - q * m` seats and no other event changes; the booked quantity grows by `q * m`. -/
theorem sole_section_concurrent_requests (d : Driver) (st : Store) (body : BookingBody)
    (pre post : List Event) (e : Event) (s : Section) (C q : ℕ) (acts : List Action)
    (hC : C ≤ 2 ^ 53) (hq0 : 1 ≤ q)
    (hev : st.events = pre ++ e :: post)
    (hpre : ∀ x ∈ pre, x.id ≠ e.id) (hpost : ∀ x ∈ post, x.id ≠ e.id)
    (hsec : e.sections = [s]) (hcap : s.capacity = C) (hrem : s.remaining = C)
    (he : truthy body.eventId = true) (hs : truthy body.sectionId = true)
    (hq : body.qty = .num q)
    (hce : d.castObjectId body.eventId = some e.id)
    (hcs : d.castObjectId body.sectionId = some s.id)
    (hacts : ∀ a ∈ acts, ∀ amb b, a = .arrive amb b →
      b = body ∧ ∀ site, amb.fault site = none)
    (hdone : (Server.run d (Server.fresh st) acts).inFlight.length = 0) :
    ((Server.run d (Server.fresh st) acts).responses.map (fun p => p.1)).Perm
      (List.range (acts.countP Action.isArrive)) ∧
    (Server.run d (Server.fresh st) acts).responses.countP (fun p => p.2.status == 201) =
      min (acts.countP Action.isArrive) (C / q) ∧
    (∀ p ∈ (Server.run d (Server.fresh st) acts).responses, p.1 < C / q →
      ∃ b, p.2 = bookingCreated b ((C : ℚ) - q * (p.1 + 1 : ℕ)) ∧
        b.eventId = e.id ∧ b.sectionId = s.id ∧ b.qty = q) ∧
    (∀ p ∈ (Server.run d (Server.fresh st) acts).responses, C / q ≤ p.1 →
      p.2 = failure 400 (.notEnoughSeats q
        ((C : ℚ) - q * (min (acts.countP Action.isArrive) (C / q) : ℕ)))) ∧
    (Server.run d (Server.fresh st) acts).store.events =
      pre ++ ⟨e.id, e.name, [⟨s.id, s.name, s.price, C,
        (C : ℚ) - q * (min (acts.countP Action.isArrive) (C / q) : ℕ)⟩]⟩ :: post ∧
    bookedQty (Server.run d (Server.fresh st) acts).store e.id s.id =
      bookedQty st e.id s.id + q * (min (acts.countP Action.isArrive) (C / q) : ℕ) := by
  have hinit : SoleSectionInv body pre post e s C q (bookedQty st e.id s.id)
      (Server.fresh st) := by
    refine ⟨?_, ?_, ?_, ?_, ?_⟩
    · obtain ⟨eid, ename, esecs⟩ := e
      obtain ⟨sid, sname, sprice, scap, srem⟩ := s
      simp only at hsec hrem
      simp [Server.fresh, hev, withSeats, hsec, hrem]
    · intro f hf; simp [Server.fresh] at hf
    · intro p hp; simp [Server.fresh] at hp
    · simp [Server.fresh]
    · simp [Server.fresh]
  obtain ⟨⟨h1, _, h3, h4, h5⟩, hk⟩ := soleSectionInv_run d body pre post e s C q
    (bookedQty st e.id s.id) hC hq0 hpre hpost he hs hq hce hcs acts (Server.fresh st) hacts
    hinit
  have hk' : (Server.run d (Server.fresh st) acts).started = acts.countP Action.isArrive := by
    rw [hk]; simp [Server.fresh]
  rw [hk'] at h1 h3 h4
  have hnil : (Server.run d (Server.fresh st) acts).inFlight = [] :=
    List.length_eq_zero.1 hdone
  rw [hnil] at h4
  simp only [List.map_nil, List.nil_append] at h4
  have hcount : (Server.run d (Server.fresh st) acts).responses.countP
      (fun p => decide (p.1 < C / q)) = min (acts.countP Action.isArrive) (C / q) := by
    have := h4.countP_eq (fun i => decide (i < C / q))
    rw [countP_range_lt, List.countP_map] at this
    rw [← this]
    rfl
  refine ⟨h4, ?_, ?_, ?_, ?_, ?_⟩
  · rw [← hcount]
    apply List.countP_congr
    intro p hp
    obtain ⟨_, hcase⟩ := h3 p hp
    rcases hcase with ⟨hi, b, hb, _⟩ | ⟨hi, hb⟩
    · simp [hb, bookingCreated, hi]
    · have : ¬ p.1 < C / q := by omega
      simp [hb, failure, this]
  · intro p hp hi
    obtain ⟨_, hcase⟩ := h3 p hp
    rcases hcase with ⟨_, hb⟩ | ⟨hi2, _⟩
    · exact hb
    · omega
  · intro p hp hi
    obtain ⟨hlt, hcase⟩ := h3 p hp
    rcases hcase with ⟨hi2, _⟩ | ⟨_, hb⟩
    · omega
    · have hmin : min (acts.countP Action.isArrive) (C / q) = C / q := by omega
      rw [hmin]; exact hb
  · rw [h1, withSeats, hcap]
  · rw [h5, hcount]

/-- Witness of C7, amended, the instance of the concurrency test: capacity 5 and ten
concurrent requests of one seat.  All are answered, five with 201; the section ends with
no seat and five seats are booked. -/
theorem sole_section_concurrent_requests_witness :
    (Server.run hexDriver (Server.fresh raceStore) raceActions).inFlight.length = 0 ∧
    (Server.run hexDriver (Server.fresh raceStore) raceActions).responses.length = 10 ∧
    (Server.run hexDriver (Server.fresh raceStore) raceActions).responses.countP
      (fun p => p.2.status == 201) = 5 ∧
    (Server.run hexDriver (Server.fresh raceStore) raceActions).store.events =
      [⟨0, "Concurrency Test Event", [⟨1, "Test Section", 100, 5, 0⟩]⟩] ∧
    bookedQty (Server.run hexDriver (Server.fresh raceStore) raceActions).store 0 1 = 5 :=
  have hdone : (Server.run hexDriver (Server.fresh raceStore) raceActions).inFlight.length = 0 := by
    decide!
  have hk : raceActions.countP Action.isArrive = 10 := by decide
  have h := sole_section_concurrent_requests hexDriver raceStore raceBody [] []
    ⟨0, "Concurrency Test Event", [⟨1, "Test Section", 100, 5, 5⟩]⟩
    ⟨1, "Test Section", 100, 5, 5⟩ 5 1 raceActions (by norm_num) (by decide) rfl (by simp)
    (by simp) rfl
    (by norm_num) (by norm_num) (by decide) (by decide) (by simp [raceBody]) (by decide)
    (by decide)
    (by
      intro a ha amb b hab
      subst hab
      simp only [raceActions, List.mem_append, List.mem_map] at ha
      rcases ha with ⟨t, _, ht⟩ | ⟨t, _, ht⟩
      · injection ht with h1 h2
        subst h1 h2
        exact ⟨rfl, fun _ => rfl⟩
      · cases ht)
    hdone
  have hb : bookedQty raceStore 0 1 = 0 := by simp [bookedQty, raceStore]
  ⟨hdone, by simpa [hk] using h.1.length_eq, by simpa [hk] using h.2.1,
    by simpa [hk] using h.2.2.2.2.1,
    by simpa [hk, hb] using h.2.2.2.2.2⟩

/-- Counterexample to C7 as stated.  The only section of the event has capacity `2 ^ 54`.
One request for one seat is answered 201 with `remainingSeats` `2 ^ 54`, which is not
`C - q`, and the section is left with `2 ^ 54` seats: the `$inc` by `-1` rounds
`2 ^ 54 - 1`, which is no double, back to `2 ^ 54`. -/
theorem sole_section_beyond_exact_integers :
    (∀ cv : Conversions,
      (createEvent cv (Ambient.quiet 0) Store.empty vastBody).2 = vastStore) ∧
    toDouble (18014398509481984 + -1) = 18014398509481984 ∧
    (Server.run hexDriver (Server.fresh vastStore) vastActions).inFlight.length = 0 ∧
    (Server.run hexDriver (Server.fresh vastStore) vastActions).responses =
      [(0, bookingCreated ⟨2, 0, 1, 1, 0⟩ 18014398509481984)] ∧
    (18014398509481984 : ℚ) ≠ 18014398509481984 - 1 ∧
    (Server.run hexDriver (Server.fresh vastStore) vastActions).store.events =
      [⟨0, "Festival", [⟨1, "Field", 10, 18014398509481984, 18014398509481984⟩]⟩] := by
  refine ⟨fun cv => ?_, by decide!, by decide!, by decide!, by norm_num, by decide!⟩
  have h1 : (0 : ℚ) ≤ 10 := by norm_num
  have h2 : (1 : ℚ) ≤ 18014398509481984 := by norm_num
  have h3 : (0 : ℚ) ≤ 18014398509481984 := by norm_num
  have h4 : ¬ ((18014398509481984 : ℚ) < 1) := by norm_num
  have h5 : ¬ ((18014398509481984 : ℚ) = 0) := by norm_num
  have ht : jsTrim "Festival" = "Festival" := by decide
  have ht2 : jsTrim "Field" = "Field" := by decide
  simp [createEvent, vastBody, vastStore, truthy, prepareSections, prepareSection,
    lessThanOne, toNumber, eventCreate, castString, validateSections, validateSection,
    castNumber, Ambient.quiet, Store.empty, h1, h2, h3, h4, h5, ht, ht2]

end TicketBooking
